import Mathlib

/-!
# Freerots learning projects: time base and task lifecycle

A shallow embedding of the delay driver (`Drivers/SYSTEM/delay/delay.c`) and of the
FreeRTOS demo tasks (`Users/FreeROTS_Demo.c`), together with the properties of the
specification that concern them.

Conventions.
* C unsigned integers are natural numbers; every operation that can leave the range of its
  C type is reduced modulo `2 ^ 32` (or `2 ^ 16`) explicitly.
* Busy-wait loops consume a finite list of observations of the hardware counter and
  answer `none` when that list ends before the loop has left.
* Calls into the external scheduler are recorded as events.
-/

namespace Freerots

/-! ## Machine arithmetic -/

/-- Addition of two `uint32_t` values. -/
def add32 (a b : Nat) : Nat := (a + b) % 2 ^ 32

/-- Subtraction of two `uint32_t` values (wraps below zero). -/
def sub32 (a b : Nat) : Nat := (a + 2 ^ 32 - b % 2 ^ 32) % 2 ^ 32

/-- Multiplication of two `uint32_t` values. -/
def mul32 (a b : Nat) : Nat := (a * b) % 2 ^ 32

/-- Conversion to `uint16_t`. -/
def toU16 (a : Nat) : Nat := a % 2 ^ 16

/-! ## The SysTick hardware counter

The Cortex-M SysTick counter is not part of the sources; `delay.c` only reads its `VAL`
and `LOAD` registers. The counter counts down by one per core clock, and the count
that follows `0` is `LOAD`, so one full period is `LOAD + 1` counts. -/

/-- One count of the down counter: below `0` it is reloaded with `LOAD`. -/
def sysTickStep (LOAD v : Nat) : Nat := if v = 0 then LOAD else v - 1

/-- Value of `SysTick->VAL` when `d` counts have elapsed since it read `v`. -/
def sysTickAfter (LOAD v d : Nat) : Nat := (v + (LOAD + 1) - d % (LOAD + 1)) % (LOAD + 1)

/-- Bit `TICKINT` of `SysTick->CTRL` (CMSIS `SysTick_CTRL_TICKINT_Msk`, `1 << 1`). -/
def SysTick_CTRL_TICKINT_Msk : Nat := 2

/-- Bit `ENABLE` of `SysTick->CTRL` (CMSIS `SysTick_CTRL_ENABLE_Msk`, `1 << 0`). -/
def SysTick_CTRL_ENABLE_Msk : Nat := 1

/-! ## Outcomes of a call -/

/-- How a call of a C function ends. -/
inductive Outcome (α : Type) where
  /-- The function returned, leaving the given result. -/
  | returned : α → Outcome α
  /-- The function entered an endless loop on purpose (fatal halt). -/
  | halted : Outcome α
  /-- The function performed a division by zero (undefined behaviour). -/
  | undefined : Outcome α
  deriving DecidableEq, Repr

/-! ## `delay.c`: state and initialisation -/

/-- The two static coefficients of `delay.c` and the SysTick registers it writes. -/
structure DelayState where
  /-- `static uint32_t g_fac_us`: counts per microsecond. -/
  g_fac_us : Nat
  /-- `static uint16_t g_fac_ms`: milliseconds per scheduler tick. -/
  g_fac_ms : Nat
  /-- `SysTick->CTRL`. -/
  CTRL : Nat
  /-- `SysTick->LOAD` (a 24 bit register). -/
  LOAD : Nat
  deriving DecidableEq, Repr

/-- State before `delay_init`: both coefficients are initialised to `0` in the source;
the SysTick registers hold their reset value `0`. -/
def DelayState.boot : DelayState := ⟨0, 0, 0, 0⟩

/-- The function `delay_init(uint16_t sysclk)` for a build with tick rate
`configTICK_RATE_HZ` (an `uint32_t` constant of `FreeRTOSConfig.h`). `sysclk` is the
argument of the call; the `uint16_t` parameter receives it reduced modulo `2 ^ 16`. The
body is straight-line code: two stores, two divisions by the tick rate and three
register writes. -/
def delay_init (configTICK_RATE_HZ sysclk : Nat) (s : DelayState) : Outcome DelayState :=
  if configTICK_RATE_HZ = 0 then .undefined
  else
    let sysclk16 := toU16 sysclk
    let g_fac_us := sysclk16
    let reload := mul32 sysclk16 (1000000 / configTICK_RATE_HZ)
    let g_fac_ms := toU16 (1000 / configTICK_RATE_HZ)
    let ctrl1 := s.CTRL ||| SysTick_CTRL_TICKINT_Msk
    let load := sub32 reload 1 % 2 ^ 24
    let ctrl2 := ctrl1 ||| SysTick_CTRL_ENABLE_Msk
    .returned ⟨g_fac_us, g_fac_ms, ctrl2, load⟩

/-! ## `delay.c`: the microsecond busy-wait -/

/-- The amount `delay_us` adds to `tcnt` for two differing reads `told`, `tnow`:
`told - tnow` when `tnow < told`, and `reload - tnow + told` otherwise. -/
def tcntIncrement (reload told tnow : Nat) : Nat :=
  if tnow < told then sub32 told tnow else add32 (sub32 reload tnow) told

/-- What `delay_us` leaves behind when its loop is left. -/
structure DelayUsResult where
  /-- Final value of the local `tcnt`. -/
  tcnt : Nat
  /-- Counts of the hardware counter that really elapsed between the first read of
  `SysTick->VAL` and the read on which the loop was left (a reference measurement, not a
  variable of the program). Both reads lie between `portENTER_CRITICAL` and
  `portEXIT_CRITICAL`. -/
  elapsed : Nat
  /-- Number of reads of `SysTick->VAL` made inside the loop. -/
  reads : Nat
  deriving DecidableEq, Repr

/-- The `while (1)` loop of `delay_us`. Each element of the list is the number of counts
elapsed between one read of `SysTick->VAL` and the next; `LOAD` is the reload register of
the hardware, `reload` the local copy the program made of it. The carried values are the
locals `told` and `tcnt` and the reference measurement. -/
def delay_us_loop (LOAD reload ticks : Nat) :
    Nat → Nat → Nat → Nat → List Nat → Option DelayUsResult
  | _, _, _, _, [] => none
  | told, tcnt, elapsed, n, d :: ds =>
    let tnow := sysTickAfter LOAD told d
    if tnow ≠ told then
      let tcnt1 := add32 tcnt (tcntIncrement reload told tnow)
      if tcnt1 ≥ ticks then some ⟨tcnt1, elapsed + d, n + 1⟩
      else delay_us_loop LOAD reload ticks tnow tcnt1 (elapsed + d) (n + 1) ds
    else delay_us_loop LOAD reload ticks told tcnt (elapsed + d) (n + 1) ds

/-- The function `delay_us(uint32_t nus)`. `v0` is the value of `SysTick->VAL` at the
first read (`told = SysTick->VAL`), `ds` the counts elapsed between successive later
reads. The result is `none` while the loop is still spinning at the end of `ds`. -/
def delay_us (s : DelayState) (nus v0 : Nat) (ds : List Nat) : Option DelayUsResult :=
  let reload := s.LOAD
  let ticks := mul32 nus s.g_fac_us
  delay_us_loop s.LOAD reload ticks v0 0 0 0 ds

/-! ## `delay.c`: the millisecond delay -/

/-- Values of `xTaskGetSchedulerState()` (FreeRTOS `task.h`). -/
inductive SchedulerState where
  | taskSCHEDULER_SUSPENDED
  | taskSCHEDULER_NOT_STARTED
  | taskSCHEDULER_RUNNING
  deriving DecidableEq, Repr

/-- Modelled from the spec: the FreeRTOS macro `pdMS_TO_TICKS` (header `projdefs.h`, not
among the sources), the conversion of a time in milliseconds to scheduler ticks used by
the non-blocking wait primitive: `(TickType_t) xTimeInMs * configTICK_RATE_HZ / 1000` in
32 bit arithmetic (`configUSE_16_BIT_TICKS` is `0`). -/
def pdMS_TO_TICKS (configTICK_RATE_HZ xTimeInMs : Nat) : Nat :=
  mul32 xTimeInMs configTICK_RATE_HZ / 1000

/-- The calls `delay_ms` makes, in order. -/
inductive DelayCall where
  /-- The call `vTaskDelay(xTicksToDelay)`: the calling task yields. -/
  | vTaskDelay (xTicksToDelay : Nat)
  /-- The call `delay_us(nus)`: busy-wait. -/
  | delay_us (nus : Nat)
  deriving DecidableEq, Repr

/-- The function `delay_ms(uint16_t nms)`. `ipsr` is the value of `__get_IPSR()`, `sched`
the value of `xTaskGetSchedulerState()`. The statement `nms %= g_fac_ms` divides by
`g_fac_ms`; with `g_fac_ms = 0` the behaviour is undefined. -/
def delay_ms (configTICK_RATE_HZ : Nat) (s : DelayState) (ipsr : Nat) (sched : SchedulerState)
    (nms : Nat) : Outcome (List DelayCall) :=
  if ipsr = 0 ∧ sched = SchedulerState.taskSCHEDULER_RUNNING then
    let yielded :=
      if nms ≥ s.g_fac_ms then [DelayCall.vTaskDelay (pdMS_TO_TICKS configTICK_RATE_HZ nms)]
      else []
    if s.g_fac_ms = 0 then .undefined
    else
      let nms1 := nms % s.g_fac_ms
      .returned (yielded ++ (if nms1 > 0 then [DelayCall.delay_us (mul32 nms1 1000)] else []))
  else
    .returned (if nms > 0 then [DelayCall.delay_us (mul32 nms 1000)] else [])

/-- The function `HAL_Delay(uint32_t Delay)`: the argument is cast to `uint16_t`. -/
def HAL_Delay (configTICK_RATE_HZ : Nat) (s : DelayState) (ipsr : Nat) (sched : SchedulerState)
    (Delay : Nat) : Outcome (List DelayCall) :=
  delay_ms configTICK_RATE_HZ s ipsr sched (toU16 Delay)

/-! ## `delay.c`: the SysTick interrupt handler -/

/-- Calls an interrupt handler of the time base can make. -/
inductive IsrCall where
  /-- The scheduler tick hook of the FreeRTOS port. -/
  | xPortSysTickHandler
  /-- The HAL routine that advances the library millisecond counter `uwTick`. -/
  | HAL_IncTick
  deriving DecidableEq, Repr

/-- The function `SysTick_Handler()`; `sched` is the value of `xTaskGetSchedulerState()`. -/
def SysTick_Handler (sched : SchedulerState) : List IsrCall :=
  if sched ≠ SchedulerState.taskSCHEDULER_NOT_STARTED then [IsrCall.xPortSysTickHandler] else []

/-- The library millisecond counter `uwTick` after a sequence of calls: `HAL_IncTick` adds
one (modulo `2 ^ 32`); the scheduler hook belongs to the FreeRTOS port and has no access
to the counter of the HAL. -/
def uwTickAfter : List IsrCall → Nat → Nat
  | [], uwTick => uwTick
  | IsrCall.HAL_IncTick :: cs, uwTick => uwTickAfter cs (add32 uwTick 1)
  | IsrCall.xPortSysTickHandler :: cs, uwTick => uwTickAfter cs uwTick

/-! ## `FreeRTOSConfig.h` -/

/-- The tick rate `configTICK_RATE_HZ` of the shipped configuration. -/
def configTICK_RATE_HZ : Nat := 1000

/-! ## `FreeROTS_Demo.c`: the key task -/

/-- The two handle variables `vTask4` acts on. -/
inductive HandleVar where
  | task1_handler
  | task2_handler
  deriving DecidableEq, Repr

/-- The handle variables read and written by `vTask4`; `none` is `NULL`. -/
structure Handles (H : Type) where
  task1_handler : Option H
  task2_handler : Option H
  deriving DecidableEq, Repr

/-- What one pass of the loop of `vTask4` does, statement by statement. -/
inductive Task4Event (H : Type) where
  | printf (text : String)
  | Key_Scan
  | OLED_ShowString (line column : Nat) (text : String)
  /-- The call `vTaskDelete(var)` with the value `h` the variable holds. -/
  | vTaskDelete (var : HandleVar) (h : Option H)
  /-- The assignment `var = NULL`. -/
  | assignNULL (var : HandleVar)
  | vTaskDelay (ticks : Nat)
  deriving DecidableEq, Repr

/-- One pass of the `while (1)` loop of `vTask4`, where `Key_Scan()` answered `key_num`. -/
def vTask4_pass {H : Type} (key_num : Nat) (s : Handles H) : Handles H × List (Task4Event H) :=
  let head : List (Task4Event H) :=
    [.printf "Task4 is running  RTOS tick: %lu  \r\n", .Key_Scan]
  let tail : List (Task4Event H) := [.vTaskDelay (pdMS_TO_TICKS configTICK_RATE_HZ 100)]
  if key_num = 1 then
    let pressed : List (Task4Event H) :=
      [.OLED_ShowString 2 1 "KEY1 Pressed!", .printf "KEY1 Pressed!\r\n"]
    let released : List (Task4Event H) :=
      [.vTaskDelay (pdMS_TO_TICKS configTICK_RATE_HZ 500), .OLED_ShowString 2 1 "             "]
    if s.task1_handler.isSome then
      (⟨none, s.task2_handler⟩,
        head ++ pressed ++
          [.vTaskDelete .task1_handler s.task1_handler, .assignNULL .task1_handler,
            .OLED_ShowString 1 1 "Task1 Deleted", .printf "Task1 Deleted\r\n",
            .vTaskDelay (pdMS_TO_TICKS configTICK_RATE_HZ 500),
            .OLED_ShowString 1 1 "             "] ++ released ++ tail)
    else (s, head ++ pressed ++ released ++ tail)
  else if key_num = 2 then
    let pressed : List (Task4Event H) :=
      [.OLED_ShowString 2 1 "KEY2 Pressed!", .printf "KEY2 Pressed!\r\n"]
    let released : List (Task4Event H) :=
      [.vTaskDelay (pdMS_TO_TICKS configTICK_RATE_HZ 500), .OLED_ShowString 2 1 "             "]
    if s.task2_handler.isSome then
      (⟨s.task1_handler, none⟩,
        head ++ pressed ++
          [.vTaskDelete .task2_handler s.task2_handler, .assignNULL .task2_handler,
            .OLED_ShowString 1 1 "Task2 Deleted", .printf "Task2 Deleted\r\n",
            .vTaskDelay (pdMS_TO_TICKS configTICK_RATE_HZ 500),
            .OLED_ShowString 1 1 "             "] ++ released ++ tail)
    else (s, head ++ pressed ++ released ++ tail)
  else (s, head ++ tail)

/-- The loop of `vTask4` over the successive answers of `Key_Scan()`. -/
def vTask4 {H : Type} : List Nat → Handles H → Handles H × List (Task4Event H)
  | [], s => (s, [])
  | key_num :: keys, s =>
    let r := vTask4_pass key_num s
    let rs := vTask4 keys r.1
    (rs.1, r.2 ++ rs.2)

/-- Number of calls `vTaskDelete(var)` in a trace. -/
def deleteCount {H : Type} (var : HandleVar) : List (Task4Event H) → Nat
  | [] => 0
  | .vTaskDelete v _ :: es => (if v = var then 1 else 0) + deleteCount var es
  | _ :: es => deleteCount var es

/-- Whether every call `vTaskDelete(var)` of a trace is directly followed by the assignment
`var = NULL`. -/
def deleteThenNULL {H : Type} : List (Task4Event H) → Bool
  | [] => true
  | .vTaskDelete v _ :: .assignNULL w :: es => decide (v = w) && deleteThenNULL es
  | .vTaskDelete _ _ :: _ => false
  | _ :: es => deleteThenNULL es

/-- Whether a trace holds a call `vTaskDelete(NULL)`. -/
def deletesNULL {H : Type} : List (Task4Event H) → Bool
  | [] => false
  | .vTaskDelete _ none :: _ => true
  | _ :: es => deletesNULL es

/-! ## `FreeROTS_Demo.c` (static allocation): start of day -/

/-- The task entry functions of the demo. -/
inductive TaskFunction where
  | Start_Task
  | vTask1
  | vTask2
  | vTask3
  | vTask4
  deriving DecidableEq, Repr

/-- The `StackType_t` arrays the demo declares. -/
inductive StackBuffer where
  | start_task_stack
  | task1_stack
  | task2_stack
  | task3_stack
  | task4_stack
  | idle_task_stack
  | timer_task_stack
  deriving DecidableEq, Repr

/-- The `StaticTask_t` control blocks the demo declares. -/
inductive StaticTask where
  | start_task_tcb
  | task1_tcb
  | task2_tcb
  | task3_tcb
  | task4_tcb
  | idle_task_tcb
  | timer_task_tcb
  deriving DecidableEq, Repr

/-- A task handle: `NULL` (`none`) or the address of a control block. -/
abbrev TaskHandle_t := Option StaticTask

/-- `START_TASK_STACK_SIZE`. -/
def START_TASK_STACK_SIZE : Nat := 128
/-- `START_TASK_PRIORITY`. -/
def START_TASK_PRIORITY : Nat := 0
/-- `TASK1_STACK_SIZE`. -/
def TASK1_STACK_SIZE : Nat := 128
/-- `TASK1_PRIORITY`. -/
def TASK1_PRIORITY : Nat := 1
/-- `TASK2_STACK_SIZE`. -/
def TASK2_STACK_SIZE : Nat := 128
/-- `TASK2_PRIORITY`. -/
def TASK2_PRIORITY : Nat := 2
/-- `TASK3_STACK_SIZE`. -/
def TASK3_STACK_SIZE : Nat := 128
/-- `TASK3_PRIORITY`. -/
def TASK3_PRIORITY : Nat := 3
/-- `TASK4_STACK_SIZE`. -/
def TASK4_STACK_SIZE : Nat := 128
/-- `TASK4_PRIORITY`. -/
def TASK4_PRIORITY : Nat := 4

/-- The arguments of one call of `xTaskCreateStatic`, which are also what the scheduler
records about the task. -/
structure TaskRecord where
  pxTaskCode : TaskFunction
  pcName : String
  ulStackDepth : Nat
  uxPriority : Nat
  puxStackBuffer : StackBuffer
  pxTaskBuffer : StaticTask
  deriving DecidableEq, Repr

/-- Modelled from the spec: the task creation primitive of the external scheduler, which
is reduced to the list of tasks registered with it. The new task joins the list and the
handle returned is the address of the control block the caller supplied. -/
def xTaskCreateStatic (t : TaskRecord) (live : List TaskRecord) :
    List TaskRecord × TaskHandle_t :=
  (live ++ [t], some t.pxTaskBuffer)

/-- Modelled from the spec: the task deletion primitive of the external scheduler. The
task the handle designates leaves the list of registered tasks; a `NULL` handle
designates the calling task. -/
def vTaskDelete (h : TaskHandle_t) (caller : StaticTask) (live : List TaskRecord) :
    List TaskRecord :=
  live.filter (fun t => decide (t.pxTaskBuffer ≠ h.getD caller))

/-- The tasks registered with the scheduler and the five global handle variables. -/
structure DemoState where
  live : List TaskRecord
  start_task_handler : TaskHandle_t
  task1_handler : TaskHandle_t
  task2_handler : TaskHandle_t
  task3_handler : TaskHandle_t
  task4_handler : TaskHandle_t
  deriving DecidableEq, Repr

/-- State at reset: no task is registered and the global handles are zero-initialised. -/
def DemoState.boot : DemoState := ⟨[], none, none, none, none, none⟩

/-- What the start-of-day code does, statement by statement. -/
inductive StartEvent where
  | taskENTER_CRITICAL
  | taskEXIT_CRITICAL
  | xTaskCreateStatic (t : TaskRecord)
  | vTaskDelete (h : TaskHandle_t)
  | printf (text : String)
  | vTaskStartScheduler
  deriving DecidableEq, Repr

/-- The function `FreeROTS_Start()`, up to the call of `vTaskStartScheduler`, which hands
the processor to the scheduler for good. -/
def FreeROTS_Start (s : DemoState) : DemoState × List StartEvent :=
  let t : TaskRecord :=
    ⟨.Start_Task, "Start_Task", START_TASK_STACK_SIZE, START_TASK_PRIORITY,
      .start_task_stack, .start_task_tcb⟩
  let r := xTaskCreateStatic t s.live
  (⟨r.1, r.2, s.task1_handler, s.task2_handler, s.task3_handler, s.task4_handler⟩,
    [.xTaskCreateStatic t, .printf "Before scheduler start\r\n", .vTaskStartScheduler])

/-- The task function `Start_Task`, run as the task whose control block is
`start_task_tcb`. -/
def Start_Task (s : DemoState) : DemoState × List StartEvent :=
  let t1 : TaskRecord :=
    ⟨.vTask1, "vTask1", TASK1_STACK_SIZE, TASK1_PRIORITY, .task1_stack, .task1_tcb⟩
  let r1 := xTaskCreateStatic t1 s.live
  let t2 : TaskRecord :=
    ⟨.vTask2, "vTask2", TASK2_STACK_SIZE, TASK2_PRIORITY, .task2_stack, .task2_tcb⟩
  let r2 := xTaskCreateStatic t2 r1.1
  let t3 : TaskRecord :=
    ⟨.vTask3, "vTask3", TASK3_STACK_SIZE, TASK3_PRIORITY, .task3_stack, .task3_tcb⟩
  let r3 := xTaskCreateStatic t3 r2.1
  let t4 : TaskRecord :=
    ⟨.vTask4, "vTask4", TASK4_STACK_SIZE, TASK4_PRIORITY, .task4_stack, .task4_tcb⟩
  let r4 := xTaskCreateStatic t4 r3.1
  let live := vTaskDelete s.start_task_handler .start_task_tcb r4.1
  (⟨live, s.start_task_handler, r1.2, r2.2, r3.2, r4.2⟩,
    [.taskENTER_CRITICAL, .xTaskCreateStatic t1, .xTaskCreateStatic t2, .xTaskCreateStatic t3,
      .xTaskCreateStatic t4, .vTaskDelete s.start_task_handler, .taskEXIT_CRITICAL])

/-! ## `Tim2.c`: the time base of the HAL -/

/-- Return codes of the HAL (`HAL_StatusTypeDef`). -/
inductive HAL_StatusTypeDef where
  | HAL_OK
  | HAL_ERROR
  | HAL_BUSY
  | HAL_TIMEOUT
  deriving DecidableEq, Repr

/-- A pointer to a timer handle: the address of the global `htim2`, or the address of
some other handle. -/
inductive TimHandlePtr where
  | htim2
  | other (address : Nat)
  deriving DecidableEq, Repr

/-- The function `HAL_TIM_PeriodElapsedCallback(htim)`. -/
def HAL_TIM_PeriodElapsedCallback (htim : TimHandlePtr) : List IsrCall :=
  if htim = TimHandlePtr.htim2 then [IsrCall.HAL_IncTick] else []

/-- The structure `TIM_Base_InitTypeDef` of the HAL, the type of `htim2.Init`. -/
structure TIM_Base_InitTypeDef where
  Prescaler : Nat
  CounterMode : Nat
  Period : Nat
  ClockDivision : Nat
  RepetitionCounter : Nat
  AutoReloadPreload : Nat
  deriving DecidableEq, Repr

/-- The timer peripherals a handle can be bound to. -/
inductive TIM_TypeDef where
  | TIM2
  deriving DecidableEq, Repr

/-- The global `TIM_HandleTypeDef htim2`; `Instance` is a pointer, `none` is `NULL`. -/
structure TIM_HandleTypeDef where
  Instance : Option TIM_TypeDef
  Init : TIM_Base_InitTypeDef
  deriving DecidableEq, Repr

/-- The value of `htim2` at reset (a zero-initialised global). -/
def TIM_HandleTypeDef.boot : TIM_HandleTypeDef := ⟨none, ⟨0, 0, 0, 0, 0, 0⟩⟩

/-- `TIM_COUNTERMODE_UP` of the HAL. -/
def TIM_COUNTERMODE_UP : Nat := 0

/-- `TIM_AUTORELOAD_PRELOAD_DISABLE` of the HAL. -/
def TIM_AUTORELOAD_PRELOAD_DISABLE : Nat := 0

/-- `TIM2_IRQn` of the device header. -/
def TIM2_IRQn : Nat := 28

/-- The state the time base rests on: the coefficients and SysTick registers of
`delay.c`, the millisecond counter of the HAL and the handle of TIM2. -/
structure TimeBase where
  delay : DelayState
  uwTick : Nat
  htim2 : TIM_HandleTypeDef
  deriving DecidableEq, Repr

/-- The function `HAL_InitTick(TickPriority)`: the argument is discarded and `HAL_OK` is
returned. -/
def HAL_InitTick (TickPriority : Nat) (s : TimeBase) : TimeBase × HAL_StatusTypeDef :=
  let _unused := TickPriority
  (s, HAL_StatusTypeDef.HAL_OK)

/-- What `MX_TIM2_Init` does, call by call. -/
inductive Tim2Event where
  | HAL_RCC_TIM2_CLK_ENABLE
  | HAL_TIM_Base_Init (htim : TIM_HandleTypeDef)
  | HAL_TIM_Base_Start_IT (htim : TIM_HandleTypeDef)
  /-- The call `Error_Handler()`, which disables interrupts and never returns. -/
  | Error_Handler
  | HAL_NVIC_SetPriority (irq preemptPriority subPriority : Nat)
  | HAL_NVIC_EnableIRQ (irq : Nat)
  deriving DecidableEq, Repr

/-- The function `MX_TIM2_Init()`. `SystemCoreClock` is the `uint32_t` global of that
name, `rInit` and `rStart` are what `HAL_TIM_Base_Init` and `HAL_TIM_Base_Start_IT`
answer when called, `htim2` the value of the global handle before the call (the
fields `ClockDivision` and `RepetitionCounter` are not assigned). The result is the trace
of calls and, when the function returns, the value of `htim2`. -/
def MX_TIM2_Init (SystemCoreClock : Nat) (rInit rStart : HAL_StatusTypeDef)
    (htim2 : TIM_HandleTypeDef) : List Tim2Event × Outcome TIM_HandleTypeDef :=
  let h : TIM_HandleTypeDef :=
    ⟨some TIM_TypeDef.TIM2,
      ⟨sub32 (SystemCoreClock / 1000000) 1, TIM_COUNTERMODE_UP, 1000 - 1,
        htim2.Init.ClockDivision, htim2.Init.RepetitionCounter,
        TIM_AUTORELOAD_PRELOAD_DISABLE⟩⟩
  if rInit ≠ HAL_StatusTypeDef.HAL_OK then
    ([.HAL_RCC_TIM2_CLK_ENABLE, .HAL_TIM_Base_Init h, .Error_Handler], .halted)
  else if rStart ≠ HAL_StatusTypeDef.HAL_OK then
    ([.HAL_RCC_TIM2_CLK_ENABLE, .HAL_TIM_Base_Init h, .HAL_TIM_Base_Start_IT h,
      .Error_Handler], .halted)
  else
    ([.HAL_RCC_TIM2_CLK_ENABLE, .HAL_TIM_Base_Init h, .HAL_TIM_Base_Start_IT h,
      .HAL_NVIC_SetPriority TIM2_IRQn 15 0, .HAL_NVIC_EnableIRQ TIM2_IRQn], .returned h)

/-! ## `FreeROTS_Demo.c` (static allocation): buffers of the tasks -/

/-- `IDLE_TASK_STACK_SIZE`. -/
def IDLE_TASK_STACK_SIZE : Nat := 128

/-- `configMINIMAL_STACK_SIZE` of `FreeRTOSConfig.h`. -/
def configMINIMAL_STACK_SIZE : Nat := 128

/-- `configTIMER_TASK_STACK_DEPTH` of `FreeRTOSConfig.h`. -/
def configTIMER_TASK_STACK_DEPTH : Nat := configMINIMAL_STACK_SIZE * 2

/-- `TIMER_TASK_STACK_SIZE`. -/
def TIMER_TASK_STACK_SIZE : Nat := configTIMER_TASK_STACK_DEPTH

/-- Declared length, in words, of each `StackType_t` array. -/
def StackBuffer.length : StackBuffer → Nat
  | .start_task_stack => START_TASK_STACK_SIZE
  | .task1_stack => TASK1_STACK_SIZE
  | .task2_stack => TASK2_STACK_SIZE
  | .task3_stack => TASK3_STACK_SIZE
  | .task4_stack => TASK4_STACK_SIZE
  | .idle_task_stack => IDLE_TASK_STACK_SIZE
  | .timer_task_stack => TIMER_TASK_STACK_SIZE

/-- The three locations a memory provider writes through its pointer arguments. -/
structure TaskMemory where
  /-- `*ppxTCBBuffer`; `none` is `NULL`. -/
  tcbBuffer : Option StaticTask
  /-- `*ppxStackBuffer`: the array whose first element the pointer designates. -/
  stackBuffer : Option StackBuffer
  /-- `*pulStackSize`. -/
  stackSize : Nat
  deriving DecidableEq, Repr

/-- The function `vApplicationGetIdleTaskMemory`; the argument is what the three
locations held before the call. -/
def vApplicationGetIdleTaskMemory : TaskMemory → TaskMemory := fun _ =>
  ⟨some StaticTask.idle_task_tcb, some StackBuffer.idle_task_stack, IDLE_TASK_STACK_SIZE⟩

/-- The function `vApplicationGetTimerTaskMemory`; the argument is what the three
locations held before the call. -/
def vApplicationGetTimerTaskMemory : TaskMemory → TaskMemory := fun _ =>
  ⟨some StaticTask.timer_task_tcb, some StackBuffer.timer_task_stack, TIMER_TASK_STACK_SIZE⟩

/-- The argument records of the calls of `xTaskCreateStatic` in a trace, in order. -/
def createCalls : List StartEvent → List TaskRecord
  | [] => []
  | StartEvent.xTaskCreateStatic t :: es => t :: createCalls es
  | _ :: es => createCalls es

/-! ## `FreeROTS_Demo.c` (dynamic allocation): start of day -/

/-- The global handle variables of the demo, as targets of `xTaskCreate`. -/
inductive HandleSlot where
  | start_task_handler
  | task1_handler
  | task2_handler
  | task3_handler
  | task4_handler
  deriving DecidableEq, Repr

/-- What `Start_Task` of the dynamic demo does, statement by statement; `H` is the type
of the handles the scheduler hands out. -/
inductive DynStartEvent (H : Type) where
  | taskENTER_CRITICAL
  | taskEXIT_CRITICAL
  /-- The call `xTaskCreate(pxTaskCode, pcName, usStackDepth, NULL, uxPriority,
  &pxCreatedTask)`. -/
  | xTaskCreate (pxTaskCode : TaskFunction) (pcName : String) (usStackDepth uxPriority : Nat)
      (pxCreatedTask : HandleSlot)
  | vTaskDelete (h : Option H)
  deriving DecidableEq, Repr

/-- The task function `Start_Task` of the dynamic demo as the trace of its statements;
`start_task_handler` is the value of the global of that name. -/
def Start_Task_dynamic {H : Type} (start_task_handler : Option H) : List (DynStartEvent H) :=
  [.taskENTER_CRITICAL,
    .xTaskCreate .vTask1 "vTask1" 128 1 .task1_handler,
    .xTaskCreate .vTask2 "Task2" 128 1 .task2_handler,
    .xTaskCreate .vTask3 "Task3" 128 1 .task3_handler,
    .xTaskCreate .vTask4 "Task4" 128 2 .task4_handler,
    .vTaskDelete start_task_handler,
    .taskEXIT_CRITICAL]

/-! ## `usart.c`: the receive callback -/

/-- `USART_REC_LEN` of `usart.h`. -/
def USART_REC_LEN : Nat := 200

/-- The receive state of `usart.c`. -/
structure UsartRx where
  /-- `uint16_t g_usart_rx_sta`: bit 15 frame complete, bit 14 carriage return seen,
  bits 13..0 number of bytes received. -/
  g_usart_rx_sta : Nat
  /-- `uint8_t g_usart_rx_buf[USART_REC_LEN]`. -/
  g_usart_rx_buf : List Nat
  deriving DecidableEq, Repr

/-- The function `HAL_UART_RxCpltCallback(huart)`. `isUx` tells whether
`huart->Instance == USART_UX`, `byte` is `g_rx_buffer[0]`. The result is the new state
and, when the call stored into `g_usart_rx_buf`, the index it used. The closing call of
`HAL_UART_Receive_IT` re-arms the reception and touches neither variable. -/
def HAL_UART_RxCpltCallback (isUx : Bool) (byte : Nat) (s : UsartRx) : UsartRx × Option Nat :=
  if isUx then
    if s.g_usart_rx_sta &&& 0x8000 = 0 then
      if s.g_usart_rx_sta &&& 0x4000 ≠ 0 then
        if byte ≠ 0x0a then (⟨0, s.g_usart_rx_buf⟩, none)
        else (⟨toU16 (s.g_usart_rx_sta ||| 0x8000), s.g_usart_rx_buf⟩, none)
      else
        if byte = 0x0d then (⟨toU16 (s.g_usart_rx_sta ||| 0x4000), s.g_usart_rx_buf⟩, none)
        else
          let index := s.g_usart_rx_sta &&& 0x3FFF
          let buf := s.g_usart_rx_buf.set index byte
          let sta := toU16 (s.g_usart_rx_sta + 1)
          if sta > USART_REC_LEN - 1 then (⟨0, buf⟩, some index)
          else (⟨sta, buf⟩, some index)
    else (s, none)
  else (s, none)

/-- What happens to the receive state: a byte arrives on the serial port, or the
application clears `g_usart_rx_sta`. -/
inductive UsartInput where
  | received (byte : Nat)
  | cleared
  deriving DecidableEq, Repr

/-- The receive state after a sequence of inputs, with the indices of `g_usart_rx_buf`
the callback stored into, in order. -/
def usartRun : List UsartInput → UsartRx → UsartRx × List Nat
  | [], s => (s, [])
  | UsartInput.received byte :: rest, s =>
    let r := HAL_UART_RxCpltCallback true byte s
    let rs := usartRun rest r.1
    (rs.1, r.2.toList ++ rs.2)
  | UsartInput.cleared :: rest, s => usartRun rest ⟨0, s.g_usart_rx_buf⟩

/-- The values `g_usart_rx_sta` can hold according to the comment on its declaration: a
count of 0 .. `USART_REC_LEN - 1`, alone, with bit 14 set, or with bits 14 and 15 set. -/
def usartStaValid (sta : Nat) : Prop :=
  sta < 200 ∨ (0x4000 ≤ sta ∧ sta < 0x4000 + 200) ∨ (0xC000 ≤ sta ∧ sta < 0xC000 + 200)

/-! ## `KEY.c`: the key scan -/

/-- The two `static` variables of `Key_Scan`. -/
structure KeyState where
  key1_last_state : Nat
  key2_last_state : Nat
  deriving DecidableEq, Repr

/-- Their initial value: both keys released. -/
def KeyState.boot : KeyState := ⟨1, 1⟩

/-- The function `Key_Scan()`; `key1_current_state` and `key2_current_state` are the
levels `HAL_GPIO_ReadPin` reports for the two pins. The result is the new value of the
static variables and the key code returned. -/
def Key_Scan (key1_current_state key2_current_state : Nat) (s : KeyState) : KeyState × Nat :=
  let key_num0 := 0
  let key_num1 := if s.key1_last_state = 1 ∧ key1_current_state = 0 then 1 else key_num0
  let key_num2 := if s.key2_last_state = 1 ∧ key2_current_state = 0 then 2 else key_num1
  (⟨key1_current_state, key2_current_state⟩, key_num2)

/-- The key codes `Key_Scan` returns over a sequence of sampled levels. -/
def keyScanRun : List (Nat × Nat) → KeyState → KeyState × List Nat
  | [], s => (s, [])
  | (k1, k2) :: rest, s =>
    let r := Key_Scan k1 k2 s
    let rs := keyScanRun rest r.1
    (rs.1, r.2 :: rs.2)

/-! ## Critical sections in a trace -/

/-- What a statement of a start task is, as far as the critical section is concerned. -/
inductive StartStep where
  | enterCritical
  | exitCritical
  | create (pxTaskCode : TaskFunction)
  | delete
  | other
  deriving DecidableEq, Repr

/-- The step a statement of the static demo is. -/
def StartEvent.step : StartEvent → StartStep
  | .taskENTER_CRITICAL => .enterCritical
  | .taskEXIT_CRITICAL => .exitCritical
  | .xTaskCreateStatic t => .create t.pxTaskCode
  | .vTaskDelete _ => .delete
  | .printf _ => .other
  | .vTaskStartScheduler => .other

/-- The step a statement of the dynamic demo is. -/
def DynStartEvent.step {H : Type} : DynStartEvent H → StartStep
  | .taskENTER_CRITICAL => .enterCritical
  | .taskEXIT_CRITICAL => .exitCritical
  | .xTaskCreate f _ _ _ _ => .create f
  | .vTaskDelete _ => .delete

/-- Whether, in a sequence of steps run from critical nesting `depth`, every creation and
every deletion happens at nesting at least one, no creation follows a deletion
(`deleted` tells whether one happened), no exit happens at nesting zero, and the
nesting is zero at the end. -/
def insideCritical : Nat → Bool → List StartStep → Bool
  | depth, _, [] => depth == 0
  | depth, deleted, .enterCritical :: es => insideCritical (depth + 1) deleted es
  | depth, deleted, .exitCritical :: es => depth != 0 && insideCritical (depth - 1) deleted es
  | depth, deleted, .create _ :: es => depth != 0 && !deleted && insideCritical depth deleted es
  | depth, _, .delete :: es => depth != 0 && insideCritical depth true es
  | depth, deleted, .other :: es => insideCritical depth deleted es

/-! ## `delay.c`: the target of the busy-wait and the calls after initialisation -/

/-- The local `ticks` of `delay_us`: the product `nus * g_fac_us` as an `uint32_t`. -/
def delay_us_ticks (s : DelayState) (nus : Nat) : Nat := mul32 nus s.g_fac_us

/-- A call into `delay.c` made after start of day. -/
inductive DelayOp where
  /-- The call `delay_us(nus)`, with the counter values it observes. -/
  | delay_us (nus v0 : Nat) (ds : List Nat)
  /-- The call `delay_ms(nms)` in the given context. -/
  | delay_ms (ipsr : Nat) (sched : SchedulerState) (nms : Nat)
  /-- The call `HAL_Delay(Delay)` in the given context. -/
  | HAL_Delay (ipsr : Nat) (sched : SchedulerState) (Delay : Nat)
  deriving DecidableEq, Repr

/-- The statics and registers of `delay.c` after one call. Neither `delay_us` nor
`delay_ms` nor `HAL_Delay` assigns to anything but parameters and locals (`ticks`,
`told`, `tnow`, `tcnt`, `reload`, `nms`): the state is the one before the call, unless
the call divides by zero. -/
def DelayOp.after (HZ : Nat) (s : DelayState) : DelayOp → Outcome DelayState
  | .delay_us _ _ _ => .returned s
  | .delay_ms ipsr sched nms =>
    match Freerots.delay_ms HZ s ipsr sched nms with
    | .returned _ => .returned s
    | .halted => .halted
    | .undefined => .undefined
  | .HAL_Delay ipsr sched Delay =>
    match Freerots.HAL_Delay HZ s ipsr sched Delay with
    | .returned _ => .returned s
    | .halted => .halted
    | .undefined => .undefined

/-- The state after a sequence of calls. -/
def runDelayOps (HZ : Nat) : List DelayOp → DelayState → Outcome DelayState
  | [], s => .returned s
  | op :: ops, s =>
    match op.after HZ s with
    | .returned s1 => runDelayOps HZ ops s1
    | .halted => .halted
    | .undefined => .undefined

/-! ## `delay.c`: the critical section of the busy-wait -/

/-- The interrupt mask as the FreeRTOS port keeps it, with a reference measurement. -/
structure IrqState where
  /-- `uxCriticalNesting` of the port: interrupts are disabled while it is not zero. -/
  uxCriticalNesting : Nat
  /-- Counts of the hardware counter that elapsed so far with interrupts disabled (a
  reference measurement, not a variable of the program). -/
  maskedCounts : Nat
  deriving DecidableEq, Repr

/-- Modelled from the spec: the macro `portENTER_CRITICAL()` of the FreeRTOS port, which
opens a critical section: interrupts are disabled and the nesting count goes up. -/
def portENTER_CRITICAL (q : IrqState) : IrqState :=
  ⟨q.uxCriticalNesting + 1, q.maskedCounts⟩

/-- Modelled from the spec: the macro `portEXIT_CRITICAL()` of the FreeRTOS port, which
closes a critical section: the nesting count goes down and interrupts are enabled again
when it reaches zero. -/
def portEXIT_CRITICAL (q : IrqState) : IrqState :=
  ⟨q.uxCriticalNesting - 1, q.maskedCounts⟩

/-- The passing of `d` counts of the hardware counter: they are counted as masked when
interrupts are disabled. -/
def IrqState.elapse (q : IrqState) (d : Nat) : IrqState :=
  if q.uxCriticalNesting ≠ 0 then ⟨q.uxCriticalNesting, q.maskedCounts + d⟩ else q

/-- The `while (1)` loop of `delay_us` with the interrupt mask carried along: the body
of the loop calls neither `portENTER_CRITICAL` nor `portEXIT_CRITICAL`, so every gap
between two reads passes under the mask the loop was entered with. The arguments are
those of `delay_us_loop`; the result is the final `tcnt` and the mask. -/
def delay_us_masked_loop (LOAD reload ticks : Nat) :
    Nat → Nat → IrqState → List Nat → Option (Nat × IrqState)
  | _, _, _, [] => none
  | told, tcnt, q, d :: ds =>
    let q1 := q.elapse d
    let tnow := sysTickAfter LOAD told d
    if tnow ≠ told then
      let tcnt1 := add32 tcnt (tcntIncrement reload told tnow)
      if tcnt1 ≥ ticks then some (tcnt1, q1)
      else delay_us_masked_loop LOAD reload ticks tnow tcnt1 q1 ds
    else delay_us_masked_loop LOAD reload ticks told tcnt q1 ds

/-- The function `delay_us(uint32_t nus)` with the interrupt mask: `portENTER_CRITICAL()`
comes before the first read of `SysTick->VAL`, `portEXIT_CRITICAL()` after the loop is
left. `dEnter` is the number of counts that elapse between `portENTER_CRITICAL()` and
the first read, `dExit` the number between the last read and `portEXIT_CRITICAL()`; `v0`
and `ds` are as for `delay_us`. The result is the mask after the call. -/
def delay_us_masked (s : DelayState) (nus v0 dEnter : Nat) (ds : List Nat) (dExit : Nat)
    (q : IrqState) : Option IrqState :=
  let reload := s.LOAD
  let ticks := mul32 nus s.g_fac_us
  let q1 := portENTER_CRITICAL q
  let q2 := q1.elapse dEnter
  match delay_us_masked_loop s.LOAD reload ticks v0 0 q2 ds with
  | none => none
  | some (_, q3) => some (portEXIT_CRITICAL (q3.elapse dExit))

/-! ## `sys.c` and `main.c` -/

/-- `RCC_PLL_MUL9` of the HAL. -/
def RCC_PLL_MUL9 : Nat := 0x001C0000

/-- The function `sys_stm32_clock_init(plln)`: `rOsc` and `rClk` are what
`HAL_RCC_OscConfig` and `HAL_RCC_ClockConfig` answer; after an answer other than
`HAL_OK` the function stays in `while (1);`. -/
def sys_stm32_clock_init (plln : Nat) (rOsc rClk : HAL_StatusTypeDef) : Outcome Unit :=
  let _pllmul := plln
  if rOsc ≠ HAL_StatusTypeDef.HAL_OK then .halted
  else if rClk ≠ HAL_StatusTypeDef.HAL_OK then .halted
  else .returned ()

/-- The calls `main` makes. -/
inductive MainCall where
  | HAL_Init
  | sys_stm32_clock_init (plln : Nat)
  | usart_init (baudrate : Nat)
  | delay_init (sysclk : Nat)
  | MX_TIM2_Init
  | Key_Init
  | LED_Init
  | OLED_Init
  | FreeROTS_Start
  deriving DecidableEq, Repr

/-- Where `main` stops advancing; it never returns. -/
inductive MainEnd where
  /-- The call entered an endless loop; `delay` is the state of `delay.c` then. -/
  | haltedIn (call : MainCall) (delay : DelayState)
  /-- The call performed a division by zero. -/
  | undefinedIn (call : MainCall)
  /-- `FreeROTS_Start` registered `Start_Task` and handed the processor to the scheduler;
  `delay` is the state of `delay.c` then. -/
  | schedulerStarted (delay : DelayState) (demo : DemoState)
  deriving DecidableEq, Repr

/-- The function `main()` of a build with tick rate `HZ`: the calls it makes, in order,
and where it stops advancing. `rOsc`, `rClk`, `rInit`, `rStart` are the answers of the
HAL to the clock and TIM2 initialisations, `SystemCoreClock` the global of that name
when `MX_TIM2_Init` runs. No call is guarded by a test: `main` goes from one call to the
next whenever the call returns. -/
def main (HZ SystemCoreClock : Nat) (rOsc rClk rInit rStart : HAL_StatusTypeDef) :
    List MainCall × MainEnd :=
  match sys_stm32_clock_init RCC_PLL_MUL9 rOsc rClk with
  | .returned _ =>
    match delay_init HZ 72 DelayState.boot with
    | .returned d =>
      match (MX_TIM2_Init SystemCoreClock rInit rStart TIM_HandleTypeDef.boot).2 with
      | .returned _ =>
        ([.HAL_Init, .sys_stm32_clock_init RCC_PLL_MUL9, .usart_init 115200, .delay_init 72,
          .MX_TIM2_Init, .Key_Init, .LED_Init, .OLED_Init, .FreeROTS_Start],
          .schedulerStarted d (FreeROTS_Start DemoState.boot).1)
      | .halted =>
        ([.HAL_Init, .sys_stm32_clock_init RCC_PLL_MUL9, .usart_init 115200, .delay_init 72,
          .MX_TIM2_Init], .haltedIn .MX_TIM2_Init d)
      | .undefined =>
        ([.HAL_Init, .sys_stm32_clock_init RCC_PLL_MUL9, .usart_init 115200, .delay_init 72,
          .MX_TIM2_Init], .undefinedIn .MX_TIM2_Init)
    | .halted =>
      ([.HAL_Init, .sys_stm32_clock_init RCC_PLL_MUL9, .usart_init 115200, .delay_init 72],
        .haltedIn (.delay_init 72) DelayState.boot)
    | .undefined =>
      ([.HAL_Init, .sys_stm32_clock_init RCC_PLL_MUL9, .usart_init 115200, .delay_init 72],
        .undefinedIn (.delay_init 72))
  | .halted =>
    ([.HAL_Init, .sys_stm32_clock_init RCC_PLL_MUL9],
      .haltedIn (.sys_stm32_clock_init RCC_PLL_MUL9) DelayState.boot)
  | .undefined =>
    ([.HAL_Init, .sys_stm32_clock_init RCC_PLL_MUL9],
      .undefinedIn (.sys_stm32_clock_init RCC_PLL_MUL9))

/-! ## Arithmetic facts -/

theorem sub32_of_le {a b : Nat} (hb : b ≤ a) (ha : a < 2 ^ 32) : sub32 a b = a - b := by
  unfold sub32
  omega

theorem add32_of_lt {a b : Nat} (h : a + b < 2 ^ 32) : add32 a b = a + b := by
  unfold add32
  omega

theorem sysTickAfter_of_le {LOAD v d : Nat} (hv : v ≤ LOAD) (hd : d ≤ LOAD) :
    sysTickAfter LOAD v d = if d ≤ v then v - d else v + (LOAD + 1) - d := by
  unfold sysTickAfter
  have hd1 : d % (LOAD + 1) = d := Nat.mod_eq_of_lt (by omega)
  rw [hd1]
  split_ifs with h
  · have : v + (LOAD + 1) - d = (v - d) + (LOAD + 1) := by omega
    rw [this, Nat.add_mod_right]
    exact Nat.mod_eq_of_lt (by omega)
  · exact Nat.mod_eq_of_lt (by omega)

theorem sysTickAfter_mod (LOAD v d : Nat) :
    sysTickAfter LOAD v d = sysTickAfter LOAD v (d % (LOAD + 1)) := by
  unfold sysTickAfter
  rw [Nat.mod_mod]

theorem sysTickAfter_le (LOAD v d : Nat) : sysTickAfter LOAD v d ≤ LOAD := by
  unfold sysTickAfter
  exact Nat.lt_succ_iff.mp (Nat.mod_lt _ (Nat.succ_pos LOAD))

theorem sysTickAfter_zero {LOAD v : Nat} (hv : v ≤ LOAD) : sysTickAfter LOAD v 0 = v := by
  rw [sysTickAfter_of_le hv (Nat.zero_le _)]
  simp

theorem sysTickAfter_succ {LOAD v : Nat} (hv : v ≤ LOAD) (d : Nat) :
    sysTickAfter LOAD v (d + 1) = sysTickStep LOAD (sysTickAfter LOAD v d) := by
  rw [sysTickAfter_mod LOAD v (d + 1), sysTickAfter_mod LOAD v d]
  have he : d % (LOAD + 1) < LOAD + 1 := Nat.mod_lt _ (Nat.succ_pos LOAD)
  have hs : (d + 1) % (LOAD + 1) = if d % (LOAD + 1) = LOAD then 0 else d % (LOAD + 1) + 1 := by
    rw [Nat.add_mod]
    split_ifs with h
    · rw [h]
      rcases Nat.eq_zero_or_pos LOAD with h0 | h0
      · subst h0; simp
      · rw [Nat.mod_eq_of_lt (show 1 < LOAD + 1 by omega)]; simp
    · rcases Nat.eq_zero_or_pos LOAD with h0 | h0
      · subst h0; omega
      · rw [Nat.mod_eq_of_lt (show 1 < LOAD + 1 by omega)]
        exact Nat.mod_eq_of_lt (by omega)
  rw [hs]
  generalize d % (LOAD + 1) = e at he ⊢
  unfold sysTickStep
  by_cases h1 : e = LOAD
  · rw [if_pos h1, sysTickAfter_of_le hv (Nat.zero_le _), sysTickAfter_of_le hv (by omega : e ≤ LOAD)]
    split_ifs <;> omega
  · rw [if_neg h1, sysTickAfter_of_le hv (by omega : e + 1 ≤ LOAD),
      sysTickAfter_of_le hv (by omega : e ≤ LOAD)]
    split_ifs <;> omega

/-- Value of the increment on a read taken `d` counts after the previous one. -/
theorem tcntIncrement_after {LOAD told d : Nat} (hL : LOAD < 2 ^ 32) (hv : told ≤ LOAD)
    (hd0 : 0 < d) (hd : d ≤ LOAD) :
    tcntIncrement LOAD told (sysTickAfter LOAD told d) = if d ≤ told then d else d - 1 := by
  rw [sysTickAfter_of_le hv hd]
  unfold tcntIncrement
  split_ifs with h1 h2 h2
  · rw [sub32_of_le (by omega) (by omega)]; omega
  · omega
  · omega
  · rw [sub32_of_le (by omega) (by omega), add32_of_lt (by omega)]; omega


theorem tcntIncrement_le {LOAD told d : Nat} (hL : LOAD < 2 ^ 32) (hv : told ≤ LOAD)
    (hne : sysTickAfter LOAD told d ≠ told) :
    tcntIncrement LOAD told (sysTickAfter LOAD told d) ≤ d := by
  have he : d % (LOAD + 1) < LOAD + 1 := Nat.mod_lt _ (Nat.succ_pos LOAD)
  have hle : d % (LOAD + 1) ≤ d := Nat.mod_le _ _
  rw [sysTickAfter_mod] at hne ⊢
  have h0 : 0 < d % (LOAD + 1) := by
    rcases Nat.eq_zero_or_pos (d % (LOAD + 1)) with h | h
    · rw [h, sysTickAfter_zero hv] at hne
      exact absurd rfl hne
    · exact h
  rw [tcntIncrement_after hL hv h0 (by omega)]
  split_ifs <;> omega

theorem add32_le (a b : Nat) : add32 a b ≤ a + b := Nat.mod_le _ _

theorem delay_us_loop_sound {LOAD ticks : Nat} (hL : LOAD < 2 ^ 32) :
    ∀ (ds : List Nat) (told tcnt elapsed n : Nat) (r : DelayUsResult),
      told ≤ LOAD → tcnt ≤ elapsed →
      delay_us_loop LOAD LOAD ticks told tcnt elapsed n ds = some r →
      ticks ≤ r.tcnt ∧ r.tcnt ≤ r.elapsed := by
  intro ds
  induction ds with
  | nil => intro told tcnt elapsed n r _ _ h; simp [delay_us_loop] at h
  | cons d ds ih =>
    intro told tcnt elapsed n r hv hle h
    simp only [delay_us_loop] at h
    by_cases hne : sysTickAfter LOAD told d = told
    · rw [if_neg (by simpa using hne)] at h
      exact ih told tcnt (elapsed + d) (n + 1) r hv (by omega) h
    · rw [if_pos hne] at h
      have hinc := tcntIncrement_le hL hv hne
      have hadd := add32_le tcnt (tcntIncrement LOAD told (sysTickAfter LOAD told d))
      split_ifs at h with hge
      · cases h
        exact ⟨hge, show add32 tcnt _ ≤ elapsed + d by omega⟩
      · exact ih _ _ (elapsed + d) (n + 1) r (sysTickAfter_le LOAD told d) (by omega) h

theorem delay_us_loop_elapsed {LOAD reload ticks : Nat} :
    ∀ (ds : List Nat) (told tcnt elapsed n : Nat) (r : DelayUsResult),
      delay_us_loop LOAD reload ticks told tcnt elapsed n ds = some r →
      n < r.reads ∧ r.reads ≤ n + ds.length ∧
        r.elapsed = elapsed + (ds.take (r.reads - n)).sum := by
  intro ds
  induction ds with
  | nil => intro told tcnt elapsed n r h; simp [delay_us_loop] at h
  | cons d ds ih =>
    intro told tcnt elapsed n r h
    simp only [delay_us_loop] at h
    have key : ∀ told1 tcnt1, delay_us_loop LOAD reload ticks told1 tcnt1 (elapsed + d) (n + 1) ds
        = some r → n < r.reads ∧ r.reads ≤ n + (d :: ds).length ∧
        r.elapsed = elapsed + ((d :: ds).take (r.reads - n)).sum := by
      intro told1 tcnt1 h1
      obtain ⟨h2, h3, h4⟩ := ih told1 tcnt1 (elapsed + d) (n + 1) r h1
      refine ⟨by omega, by simp only [List.length_cons]; omega, ?_⟩
      have : r.reads - n = (r.reads - (n + 1)) + 1 := by omega
      rw [h4, this, List.take_succ_cons, List.sum_cons]
      omega
    split_ifs at h with h1 h2
    · cases h
      refine ⟨by show n < n + 1; omega, by simp, ?_⟩
      show elapsed + d = elapsed + ((d :: ds).take (n + 1 - n)).sum
      have : n + 1 - n = 1 := by omega
      rw [this]; simp
    · exact key _ _ h
    · exact key _ _ h

/-- The loop is left once enough reads have been made: when every read comes between 2
and `LOAD` counts after the previous one and `tcnt` cannot wrap before the target is
reached, `ticks - tcnt` further reads (at least one) suffice. -/
theorem delay_us_loop_returns {LOAD ticks : Nat} (hL : LOAD < 2 ^ 32)
    (hfit : ticks + LOAD < 2 ^ 32) :
    ∀ (ds : List Nat) (told tcnt elapsed n : Nat),
      told ≤ LOAD → tcnt ≤ ticks → (∀ d ∈ ds, 2 ≤ d ∧ d ≤ LOAD) →
      1 ≤ ds.length → ticks - tcnt ≤ ds.length →
      ∃ r, delay_us_loop LOAD LOAD ticks told tcnt elapsed n ds = some r := by
  intro ds
  induction ds with
  | nil => intro told tcnt elapsed n _ _ _ h1 _; simp at h1
  | cons d ds ih =>
    intro told tcnt elapsed n hv hle hds _ hlen
    obtain ⟨hd2, hdL⟩ := hds d (List.mem_cons_self d ds)
    have hinc := tcntIncrement_after hL hv (show 0 < d by omega) hdL
    have hne : sysTickAfter LOAD told d ≠ told := by
      rw [sysTickAfter_of_le hv hdL]
      split_ifs <;> omega
    have hlo : 1 ≤ tcntIncrement LOAD told (sysTickAfter LOAD told d) := by
      rw [hinc]; split_ifs <;> omega
    have hhi : tcntIncrement LOAD told (sysTickAfter LOAD told d) ≤ LOAD := by
      rw [hinc]; split_ifs <;> omega
    have hadd : add32 tcnt (tcntIncrement LOAD told (sysTickAfter LOAD told d)) =
        tcnt + tcntIncrement LOAD told (sysTickAfter LOAD told d) :=
      add32_of_lt (by omega)
    simp only [delay_us_loop]
    rw [if_pos hne, hadd]
    by_cases hge : tcnt + tcntIncrement LOAD told (sysTickAfter LOAD told d) ≥ ticks
    · rw [if_pos hge]
      exact ⟨_, rfl⟩
    · rw [if_neg hge]
      simp only [List.length_cons] at hlen
      exact ih _ _ (elapsed + d) (n + 1) (sysTickAfter_le LOAD told d) (by omega)
        (fun x hx => hds x (List.mem_cons_of_mem d hx)) (by omega) (by omega)

/-! ## The microsecond busy-wait -/

/-- C1 (fails on the code). With `LOAD = 71999`, one count after a read of `told = 0` the
counter has wrapped and reads `tnow = 71999`. The branch `reload - tnow + told` of
`delay_us`, with `reload = SysTick->LOAD`, adds `0` to `tcnt` although one count
elapsed: across a wrap the increment is one short of the true elapsed count. -/
theorem delay_us_wrap_increment_one_short :
    sysTickStep 71999 0 = 71999 ∧ sysTickAfter 71999 0 1 = 71999 ∧
      tcntIncrement 71999 0 (sysTickAfter 71999 0 1) = 0 ∧
      tcntIncrement 71999 0 (sysTickAfter 71999 0 1) ≠ 1 := by
  decide

/-- C2. For every `nus` whose target `nus * g_fac_us` fits in 32 bits and every sequence
of reads of the hardware counter (whatever their spacing, so in particular when
successive reads are less than one reload period apart): when `delay_us(nus)` returns,
the counts that really elapsed since its first read, namely the sum of the counts between
the reads it made, are at least `nus * g_fac_us`. It never returns early. -/
theorem delay_us_never_returns_early (s : DelayState) (nus v0 : Nat) (ds : List Nat)
    (r : DelayUsResult) (hrange : nus * s.g_fac_us < 2 ^ 32) (hL : s.LOAD < 2 ^ 24)
    (hv : v0 ≤ s.LOAD) (hret : delay_us s nus v0 ds = some r) :
    r.elapsed = (ds.take r.reads).sum ∧ nus * s.g_fac_us ≤ r.elapsed := by
  unfold delay_us at hret
  have h1 := delay_us_loop_sound (show s.LOAD < 2 ^ 32 by omega) ds v0 0 0 0 r hv
    (Nat.le_refl 0) hret
  have h2 := delay_us_loop_elapsed ds v0 0 0 0 r hret
  have h3 : mul32 nus s.g_fac_us = nus * s.g_fac_us := Nat.mod_eq_of_lt hrange
  rw [h3] at h1
  refine ⟨?_, by omega⟩
  simpa using h2.2.2

/-- Witness for C2: at 72 counts per microsecond and `LOAD = 71999`, `delay_us(1000)`
returns on the third read of a counter read every 36000 counts, when 108000 counts have
elapsed; the target is 72000. -/
theorem delay_us_never_returns_early_witness :
    delay_us ⟨72, 1, 3, 71999⟩ 1000 71999 [36000, 36000, 36000, 36000] =
        some ⟨107999, 108000, 3⟩ ∧
      (108000 = ([36000, 36000, 36000, 36000].take 3).sum ∧ 1000 * 72 ≤ 108000) :=
  ⟨by decide, delay_us_never_returns_early ⟨72, 1, 3, 71999⟩ 1000 71999
    [36000, 36000, 36000, 36000] ⟨107999, 108000, 3⟩ (by decide) (by decide) (by decide)
    (by decide)⟩

/-! ## The millisecond delay -/

theorem pdMS_TO_TICKS_eq_div {HZ nms : Nat} (hdiv : HZ ∣ 1000) (hn : nms < 2 ^ 16) :
    pdMS_TO_TICKS HZ nms = nms / (1000 / HZ) := by
  obtain ⟨g, hg⟩ := hdiv
  have hHZ : 0 < HZ := by
    rcases Nat.eq_zero_or_pos HZ with h | h
    · subst h; omega
    · exact h
  have hle : HZ ≤ 1000 := Nat.le_of_dvd (by omega) ⟨g, hg⟩
  have hq0 : 1000 / HZ = g := by rw [hg]; exact Nat.mul_div_cancel_left g hHZ
  have hprod : nms * HZ < 2 ^ 32 := by
    calc nms * HZ ≤ 65535 * 1000 := Nat.mul_le_mul (by omega) hle
      _ < 2 ^ 32 := by norm_num
  unfold pdMS_TO_TICKS mul32
  rw [Nat.mod_eq_of_lt hprod, hq0, hg, Nat.mul_comm HZ g]
  exact Nat.mul_div_mul_right nms g hHZ

/-- C3. After `delay_init` with a tick rate that divides 1000, `g_fac_ms` is
`1000 / configTICK_RATE_HZ ≥ 1`, and for every `nms ≥ g_fac_ms` the call `delay_ms(nms)`
made in task context (`IPSR = 0`) with the scheduler running calls `vTaskDelay` exactly
once, with `pdMS_TO_TICKS(nms) = nms / g_fac_ms` ticks, and afterwards busy-waits only
the remainder `r = nms mod g_fac_ms` through `delay_us(r * 1000)`, not at all when
`r = 0`; `r < g_fac_ms` and `ticks * g_fac_ms + r = nms`. -/
theorem delay_ms_task_context (HZ sysclk : Nat) (s0 s : DelayState) (nms : Nat)
    (hdiv : HZ ∣ 1000) (hinit : delay_init HZ sysclk s0 = Outcome.returned s)
    (hn : nms < 2 ^ 16) (hge : s.g_fac_ms ≤ nms) :
    s.g_fac_ms = 1000 / HZ ∧ 1 ≤ s.g_fac_ms ∧
      pdMS_TO_TICKS HZ nms = nms / s.g_fac_ms ∧
      delay_ms HZ s 0 SchedulerState.taskSCHEDULER_RUNNING nms =
        Outcome.returned (DelayCall.vTaskDelay (nms / s.g_fac_ms) ::
          (if nms % s.g_fac_ms = 0 then []
            else [DelayCall.delay_us (nms % s.g_fac_ms * 1000)])) ∧
      nms % s.g_fac_ms < s.g_fac_ms ∧
      nms / s.g_fac_ms * s.g_fac_ms + nms % s.g_fac_ms = nms := by
  have hHZ : 0 < HZ := by
    rcases Nat.eq_zero_or_pos HZ with h | h
    · subst h; obtain ⟨g, hg⟩ := hdiv; omega
    · exact h
  have hle : HZ ≤ 1000 := Nat.le_of_dvd (by omega) hdiv
  have hq1 : 1 ≤ 1000 / HZ := (Nat.one_le_div_iff hHZ).mpr hle
  have hq2 : 1000 / HZ ≤ 1000 := Nat.div_le_self _ _
  have hg : s.g_fac_ms = 1000 / HZ := by
    unfold delay_init at hinit
    rw [if_neg (by omega)] at hinit
    injection hinit with hs
    rw [← hs]
    show toU16 (1000 / HZ) = 1000 / HZ
    unfold toU16
    exact Nat.mod_eq_of_lt (by omega)
  have hpos : 1 ≤ s.g_fac_ms := by omega
  have hticks := pdMS_TO_TICKS_eq_div hdiv hn
  rw [← hg] at hticks
  have hr : nms % s.g_fac_ms < s.g_fac_ms := Nat.mod_lt _ (by omega)
  have hmul : mul32 (nms % s.g_fac_ms) 1000 = nms % s.g_fac_ms * 1000 := by
    unfold mul32
    exact Nat.mod_eq_of_lt (by omega)
  refine ⟨hg, hpos, hticks, ?_, hr, by rw [Nat.mul_comm]; exact Nat.div_add_mod nms s.g_fac_ms⟩
  unfold delay_ms
  rw [if_pos ⟨rfl, rfl⟩]
  simp only [ge_iff_le, hge, if_true, hticks, hmul]
  rw [if_neg (by omega)]
  by_cases h0 : nms % s.g_fac_ms = 0
  · simp [h0]
  · have : nms % s.g_fac_ms > 0 := by omega
    simp [h0, this]

/-- Witness for C3, which also is its closing instance: after `delay_init(72)` with a
1000 Hz tick, `delay_ms(500)` in task context requests exactly 500 ticks from
`vTaskDelay` and never calls `delay_us`. -/
theorem delay_ms_task_context_witness :
    delay_init 1000 72 DelayState.boot = Outcome.returned ⟨72, 1, 3, 71999⟩ ∧
      delay_ms 1000 ⟨72, 1, 3, 71999⟩ 0 SchedulerState.taskSCHEDULER_RUNNING 500 =
        Outcome.returned [DelayCall.vTaskDelay 500] :=
  ⟨by decide, (delay_ms_task_context 1000 72 DelayState.boot ⟨72, 1, 3, 71999⟩ 500
    (by decide) (by decide) (by decide) (by decide)).2.2.2.1⟩

/-- C4. For every `nms` of type `uint16_t`: when `delay_ms(nms)` is called from interrupt
context (`IPSR ≠ 0`) or while the scheduler state is not `taskSCHEDULER_RUNNING`, it
makes no call of `vTaskDelay`; for `nms > 0` it calls `delay_us` exactly once, with the
full amount `nms * 1000`, and for `nms = 0` it makes no call at all. A call of
`vTaskDelay` occurs only when `IPSR = 0` and the scheduler is running. -/
theorem delay_ms_fallback (HZ : Nat) (s : DelayState) (ipsr : Nat) (sched : SchedulerState)
    (nms : Nat) (hn : nms < 2 ^ 16) :
    ((ipsr ≠ 0 ∨ sched ≠ SchedulerState.taskSCHEDULER_RUNNING) →
        delay_ms HZ s ipsr sched nms =
          Outcome.returned (if nms = 0 then [] else [DelayCall.delay_us (nms * 1000)])) ∧
      (∀ calls t, delay_ms HZ s ipsr sched nms = Outcome.returned calls →
        DelayCall.vTaskDelay t ∈ calls →
        ipsr = 0 ∧ sched = SchedulerState.taskSCHEDULER_RUNNING) := by
  have hmul : mul32 nms 1000 = nms * 1000 := by
    unfold mul32
    exact Nat.mod_eq_of_lt (by omega)
  have hfall : ¬ (ipsr = 0 ∧ sched = SchedulerState.taskSCHEDULER_RUNNING) →
      delay_ms HZ s ipsr sched nms =
        Outcome.returned (if nms = 0 then [] else [DelayCall.delay_us (nms * 1000)]) := by
    intro hctx
    unfold delay_ms
    rw [if_neg hctx, hmul]
    by_cases h0 : nms = 0
    · simp [h0]
    · have : nms > 0 := by omega
      simp [h0, this]
  constructor
  · intro hctx
    apply hfall
    rintro ⟨h1, h2⟩
    rcases hctx with h | h
    · exact h h1
    · exact h h2
  · intro calls t hcalls hmem
    by_contra hctx
    rw [hfall hctx] at hcalls
    injection hcalls with hc
    subst hc
    split_ifs at hmem <;> simp at hmem

/-- Witness for C4: inside an interrupt handler (`IPSR = 15`), `delay_ms(3)` with the
scheduler running is one busy-wait of 3000 microseconds. -/
theorem delay_ms_fallback_witness :
    delay_ms 1000 ⟨72, 1, 3, 71999⟩ 15 SchedulerState.taskSCHEDULER_RUNNING 3 =
      Outcome.returned [DelayCall.delay_us 3000] :=
  (delay_ms_fallback 1000 ⟨72, 1, 3, 71999⟩ 15 SchedulerState.taskSCHEDULER_RUNNING 3
    (by decide)).1 (Or.inl (by decide))

/-! ## Initialisation -/

/-- C7 (fails on the code). A tick rate of 300 Hz does not divide 1000000, and
`sysclk * (1000000 / 300) = 239976` is not the 240000 core-clock counts of one tick at
72 MHz; yet `delay_init(72)` returns, with the SysTick interrupt and the counter
enabled (`CTRL = 3`). -/
theorem delay_init_returns_on_inexact_tick :
    ¬ (300 ∣ 1000000) ∧ 72 * (1000000 / 300) = 239976 ∧ 300 * 239976 ≠ 72 * 1000000 ∧
      delay_init 300 72 DelayState.boot = Outcome.returned ⟨72, 3, 3, 239975⟩ := by
  decide

/-- C7 (amended). `delay_init` makes no test of the tick rate: for every core clock and
every nonzero tick rate, whether or not it divides 1000000, the call returns, having
written `(sysclk * (1000000 / configTICK_RATE_HZ) - 1) mod 2 ^ 24` (with the truncated
quotient, in 32 bit arithmetic, `sysclk` being the value the `uint16_t` parameter
received) to `LOAD` and set the bits `TICKINT` and `ENABLE` of `CTRL`. -/
theorem delay_init_always_returns (HZ sysclk : Nat) (s : DelayState) (hHZ : 0 < HZ) :
    ∃ s1, delay_init HZ sysclk s = Outcome.returned s1 ∧
      s1.LOAD = sub32 (mul32 (toU16 sysclk) (1000000 / HZ)) 1 % 2 ^ 24 ∧
      s1.CTRL.testBit 1 = true ∧ s1.CTRL.testBit 0 = true := by
  unfold delay_init
  rw [if_neg (by omega)]
  refine ⟨_, rfl, rfl, ?_, ?_⟩
  · show ((s.CTRL ||| SysTick_CTRL_TICKINT_Msk) ||| SysTick_CTRL_ENABLE_Msk).testBit 1 = true
    have hbit : SysTick_CTRL_TICKINT_Msk.testBit 1 = true := by decide
    rw [Nat.testBit_or, Nat.testBit_or, hbit]
    simp
  · show ((s.CTRL ||| SysTick_CTRL_TICKINT_Msk) ||| SysTick_CTRL_ENABLE_Msk).testBit 0 = true
    have hbit : SysTick_CTRL_ENABLE_Msk.testBit 0 = true := by decide
    rw [Nat.testBit_or, hbit]
    simp

/-- Witness for the amended C7: the tick rate 300 Hz. -/
theorem delay_init_always_returns_witness :
    ∃ s1, delay_init 300 72 DelayState.boot = Outcome.returned s1 ∧
      s1.LOAD = sub32 (mul32 72 (1000000 / 300)) 1 % 2 ^ 24 ∧
      s1.CTRL.testBit 1 = true ∧ s1.CTRL.testBit 0 = true :=
  delay_init_always_returns 300 72 DelayState.boot (by decide)

/-! ## The SysTick interrupt handler -/

/-- C10. In every state `SysTick_Handler` leaves the library millisecond counter
unchanged, makes no call of `HAL_IncTick`, and calls the scheduler tick hook
`xPortSysTickHandler` exactly once if the scheduler state is not
`taskSCHEDULER_NOT_STARTED` and not at all otherwise. -/
theorem SysTick_Handler_leaves_uwTick (sched : SchedulerState) (uwTick : Nat) :
    uwTickAfter (SysTick_Handler sched) uwTick = uwTick ∧
      IsrCall.HAL_IncTick ∉ SysTick_Handler sched ∧
      (SysTick_Handler sched).count IsrCall.xPortSysTickHandler =
        (if sched ≠ SchedulerState.taskSCHEDULER_NOT_STARTED then 1 else 0) := by
  cases sched <;> simp [SysTick_Handler, uwTickAfter]

/-! ## The key task -/

theorem deleteCount_append {H : Type} (var : HandleVar) (a b : List (Task4Event H)) :
    deleteCount var (a ++ b) = deleteCount var a + deleteCount var b := by
  induction a with
  | nil => simp [deleteCount]
  | cons e es ih => cases e <;> simp [deleteCount, ih, Nat.add_assoc]

theorem deletesNULL_append {H : Type} (a b : List (Task4Event H)) :
    deletesNULL (a ++ b) = (deletesNULL a || deletesNULL b) := by
  induction a with
  | nil => simp [deletesNULL]
  | cons e es ih =>
    cases e with
    | vTaskDelete v h => cases h <;> simp [deletesNULL, ih]
    | _ => simp [deletesNULL, ih]

theorem vTask4_pass_task1 {H : Type} (key : Nat) (s : Handles H) :
    deleteCount HandleVar.task1_handler (vTask4_pass key s).2 =
        (if key = 1 ∧ s.task1_handler.isSome then 1 else 0) ∧
      (vTask4_pass key s).1.task1_handler = (if key = 1 then none else s.task1_handler) := by
  obtain ⟨t1, t2⟩ := s
  unfold vTask4_pass
  by_cases h1 : key = 1
  · subst h1
    cases t1 <;> simp [deleteCount]
  · by_cases h2 : key = 2
    · subst h2
      cases t2 <;> simp [deleteCount]
    · simp [h1, h2, deleteCount]

theorem vTask4_pass_task2 {H : Type} (key : Nat) (s : Handles H) :
    deleteCount HandleVar.task2_handler (vTask4_pass key s).2 =
        (if key = 2 ∧ s.task2_handler.isSome then 1 else 0) ∧
      (vTask4_pass key s).1.task2_handler = (if key = 2 then none else s.task2_handler) := by
  obtain ⟨t1, t2⟩ := s
  unfold vTask4_pass
  by_cases h1 : key = 1
  · subst h1
    cases t1 <;> simp [deleteCount]
  · by_cases h2 : key = 2
    · subst h2
      cases t2 <;> simp [deleteCount]
    · simp [h1, h2, deleteCount]

theorem vTask4_pass_deletesNULL {H : Type} (key : Nat) (s : Handles H) :
    deletesNULL (vTask4_pass key s).2 = false := by
  obtain ⟨t1, t2⟩ := s
  unfold vTask4_pass
  by_cases h1 : key = 1
  · subst h1
    cases t1 <;> simp [deletesNULL]
  · by_cases h2 : key = 2
    · subst h2
      cases t2 <;> simp [deletesNULL]
    · simp [h1, h2, deletesNULL]

theorem vTask4_task1_bound {H : Type} (keys : List Nat) :
    ∀ s : Handles H, deleteCount HandleVar.task1_handler (vTask4 keys s).2 ≤
      (if s.task1_handler.isSome then 1 else 0) := by
  induction keys with
  | nil => intro s; simp [vTask4, deleteCount]
  | cons key keys ih =>
    intro s
    have hp := vTask4_pass_task1 key s
    have hi := ih (vTask4_pass key s).1
    simp only [vTask4, deleteCount_append]
    rw [hp.1]
    rw [hp.2] at hi
    by_cases h1 : key = 1
    · simp only [h1, if_true, true_and] at hi ⊢
      simp at hi
      split_ifs <;> omega
    · simp only [h1, if_false, false_and] at hi ⊢
      omega

theorem vTask4_task2_bound {H : Type} (keys : List Nat) :
    ∀ s : Handles H, deleteCount HandleVar.task2_handler (vTask4 keys s).2 ≤
      (if s.task2_handler.isSome then 1 else 0) := by
  induction keys with
  | nil => intro s; simp [vTask4, deleteCount]
  | cons key keys ih =>
    intro s
    have hp := vTask4_pass_task2 key s
    have hi := ih (vTask4_pass key s).1
    simp only [vTask4, deleteCount_append]
    rw [hp.1]
    rw [hp.2] at hi
    by_cases h1 : key = 2
    · simp only [h1, if_true, true_and] at hi ⊢
      simp at hi
      split_ifs <;> omega
    · simp only [h1, if_false, false_and] at hi ⊢
      omega

theorem vTask4_deletesNULL {H : Type} (keys : List Nat) :
    ∀ s : Handles H, deletesNULL (vTask4 keys s).2 = false := by
  induction keys with
  | nil => intro s; simp [vTask4, deletesNULL]
  | cons key keys ih =>
    intro s
    simp only [vTask4, deletesNULL_append, vTask4_pass_deletesNULL, ih, Bool.or_self]

/-- C5. One pass of the key loop of `vTask4` is a step on the pair of handle variables.
When key 1 (key 2) is reported and the corresponding handle is not `NULL`, the pass calls
`vTaskDelete` on that handle once and the very next statement stores `NULL` in the
variable, which is `NULL` after the pass while the other variable is untouched. When the
handle is `NULL` already, or another key code is reported, the pass calls `vTaskDelete`
for neither variable and changes neither. Hence over every sequence of key codes
`vTaskDelete` is called at most once for task 1, at most once for task 2, and never with
a `NULL` handle. -/
theorem vTask4_deletes_each_task_once {H : Type} (s : Handles H) (keys : List Nat) :
    (∀ h, s.task1_handler = some h →
        (vTask4_pass 1 s).1 = ⟨none, s.task2_handler⟩ ∧
        [Task4Event.vTaskDelete HandleVar.task1_handler (some h),
          Task4Event.assignNULL HandleVar.task1_handler] <:+: (vTask4_pass 1 s).2 ∧
        deleteCount HandleVar.task1_handler (vTask4_pass 1 s).2 = 1 ∧
        deleteCount HandleVar.task2_handler (vTask4_pass 1 s).2 = 0) ∧
      (∀ h, s.task2_handler = some h →
        (vTask4_pass 2 s).1 = ⟨s.task1_handler, none⟩ ∧
        [Task4Event.vTaskDelete HandleVar.task2_handler (some h),
          Task4Event.assignNULL HandleVar.task2_handler] <:+: (vTask4_pass 2 s).2 ∧
        deleteCount HandleVar.task2_handler (vTask4_pass 2 s).2 = 1 ∧
        deleteCount HandleVar.task1_handler (vTask4_pass 2 s).2 = 0) ∧
      (∀ key, (key = 1 → s.task1_handler = none) → (key = 2 → s.task2_handler = none) →
        (vTask4_pass key s).1 = s ∧ ∀ var, deleteCount var (vTask4_pass key s).2 = 0) ∧
      (∀ key, deleteThenNULL (vTask4_pass key s).2 = true) ∧
      deleteCount HandleVar.task1_handler (vTask4 keys s).2 ≤ 1 ∧
      deleteCount HandleVar.task2_handler (vTask4 keys s).2 ≤ 1 ∧
      deletesNULL (vTask4 keys s).2 = false := by
  refine ⟨?_, ?_, ?_, ?_, ?_, ?_, vTask4_deletesNULL keys s⟩
  · intro h hs
    obtain ⟨t1, t2⟩ := s
    simp only at hs
    subst hs
    exact ⟨rfl,
      ⟨[Task4Event.printf "Task4 is running  RTOS tick: %lu  \r\n", Task4Event.Key_Scan,
          Task4Event.OLED_ShowString 2 1 "KEY1 Pressed!", Task4Event.printf "KEY1 Pressed!\r\n"],
        [Task4Event.OLED_ShowString 1 1 "Task1 Deleted", Task4Event.printf "Task1 Deleted\r\n",
          Task4Event.vTaskDelay 500, Task4Event.OLED_ShowString 1 1 "             ",
          Task4Event.vTaskDelay 500, Task4Event.OLED_ShowString 2 1 "             ",
          Task4Event.vTaskDelay 100], rfl⟩, rfl, rfl⟩
  · intro h hs
    obtain ⟨t1, t2⟩ := s
    simp only at hs
    subst hs
    exact ⟨rfl,
      ⟨[Task4Event.printf "Task4 is running  RTOS tick: %lu  \r\n", Task4Event.Key_Scan,
          Task4Event.OLED_ShowString 2 1 "KEY2 Pressed!", Task4Event.printf "KEY2 Pressed!\r\n"],
        [Task4Event.OLED_ShowString 1 1 "Task2 Deleted", Task4Event.printf "Task2 Deleted\r\n",
          Task4Event.vTaskDelay 500, Task4Event.OLED_ShowString 1 1 "             ",
          Task4Event.vTaskDelay 500, Task4Event.OLED_ShowString 2 1 "             ",
          Task4Event.vTaskDelay 100], rfl⟩, rfl, rfl⟩
  · intro key hk1 hk2
    have p1 := vTask4_pass_task1 key s
    have p2 := vTask4_pass_task2 key s
    constructor
    · obtain ⟨t1, t2⟩ := s
      unfold vTask4_pass
      by_cases h1 : key = 1
      · have ht : t1 = none := hk1 h1
        subst h1 ht
        simp
      · by_cases h2 : key = 2
        · have ht : t2 = none := hk2 h2
          subst h2 ht
          simp
        · simp [h1, h2]
    · intro var
      cases var
      · rw [p1.1]
        split_ifs with hc
        · have := hk1 hc.1
          rw [this] at hc
          simp at hc
        · rfl
      · rw [p2.1]
        split_ifs with hc
        · have := hk2 hc.1
          rw [this] at hc
          simp at hc
        · rfl
  · intro key
    obtain ⟨t1, t2⟩ := s
    unfold vTask4_pass
    by_cases h1 : key = 1
    · subst h1
      cases t1 <;> simp [deleteThenNULL]
    · by_cases h2 : key = 2
      · subst h2
        cases t2 <;> simp [deleteThenNULL]
      · simp [h1, h2, deleteThenNULL]
  · have := vTask4_task1_bound keys s
    split_ifs at this <;> omega
  · have := vTask4_task2_bound keys s
    split_ifs at this <;> omega

/-- Witness for C5: both handles live, key 1 reported. -/
theorem vTask4_deletes_each_task_once_witness :
    (vTask4_pass 1 (⟨some 7, some 9⟩ : Handles Nat)).1 = ⟨none, some 9⟩ ∧
      deleteCount HandleVar.task1_handler
        (vTask4_pass 1 (⟨some 7, some 9⟩ : Handles Nat)).2 = 1 ∧
      deleteCount HandleVar.task1_handler
        (vTask4 [1, 0, 1, 2, 1] (⟨some 7, some 9⟩ : Handles Nat)).2 ≤ 1 :=
  have h := vTask4_deletes_each_task_once (⟨some 7, some 9⟩ : Handles Nat) [1, 0, 1, 2, 1]
  ⟨(h.1 7 rfl).1, (h.1 7 rfl).2.2.1, h.2.2.2.2.1⟩

/-! ## Start of day -/

/-- C6. With the external scheduler modelled as the list of tasks registered with it and
no task registered at reset: `FreeROTS_Start` registers `Start_Task`, and when
`Start_Task` has run to completion the registered tasks are exactly `vTask1`, `vTask2`,
`vTask3`, `vTask4`, with priorities 1, 2, 3, 4. They are four, `Start_Task` is no longer
among them, and the handles `task1_handler` .. `task4_handler` designate them in this
order, are pairwise distinct and are not `NULL`. -/
theorem Start_Task_leaves_four_tasks (s0 : DemoState) (hempty : s0.live = []) :
    (FreeROTS_Start s0).1.live.map (fun t => t.pxTaskCode) = [TaskFunction.Start_Task] ∧
      (Start_Task (FreeROTS_Start s0).1).1.live.map (fun t => t.pxTaskCode) =
        [TaskFunction.vTask1, TaskFunction.vTask2, TaskFunction.vTask3, TaskFunction.vTask4] ∧
      (Start_Task (FreeROTS_Start s0).1).1.live.map (fun t => t.uxPriority) = [1, 2, 3, 4] ∧
      (Start_Task (FreeROTS_Start s0).1).1.live.length = 4 ∧
      (∀ t ∈ (Start_Task (FreeROTS_Start s0).1).1.live,
        t.pxTaskCode ≠ TaskFunction.Start_Task) ∧
      [(Start_Task (FreeROTS_Start s0).1).1.task1_handler,
          (Start_Task (FreeROTS_Start s0).1).1.task2_handler,
          (Start_Task (FreeROTS_Start s0).1).1.task3_handler,
          (Start_Task (FreeROTS_Start s0).1).1.task4_handler] =
        (Start_Task (FreeROTS_Start s0).1).1.live.map (fun t => some t.pxTaskBuffer) ∧
      [(Start_Task (FreeROTS_Start s0).1).1.task1_handler,
          (Start_Task (FreeROTS_Start s0).1).1.task2_handler,
          (Start_Task (FreeROTS_Start s0).1).1.task3_handler,
          (Start_Task (FreeROTS_Start s0).1).1.task4_handler].Nodup ∧
      (∀ h ∈ [(Start_Task (FreeROTS_Start s0).1).1.task1_handler,
          (Start_Task (FreeROTS_Start s0).1).1.task2_handler,
          (Start_Task (FreeROTS_Start s0).1).1.task3_handler,
          (Start_Task (FreeROTS_Start s0).1).1.task4_handler], h ≠ none) := by
  obtain ⟨live, h0, h1, h2, h3, h4⟩ := s0
  simp only at hempty
  subst hempty
  refine ⟨rfl, rfl, rfl, rfl, ?_, rfl, ?_, ?_⟩
  · intro t ht
    have hl : (Start_Task (FreeROTS_Start ⟨[], h0, h1, h2, h3, h4⟩).1).1.live =
        [⟨.vTask1, "vTask1", 128, 1, .task1_stack, .task1_tcb⟩,
          ⟨.vTask2, "vTask2", 128, 2, .task2_stack, .task2_tcb⟩,
          ⟨.vTask3, "vTask3", 128, 3, .task3_stack, .task3_tcb⟩,
          ⟨.vTask4, "vTask4", 128, 4, .task4_stack, .task4_tcb⟩] := rfl
    rw [hl] at ht
    simp only [List.mem_cons, List.mem_singleton, List.not_mem_nil, or_false] at ht
    rcases ht with h | h | h | h <;> subst h <;> decide
  · show [some StaticTask.task1_tcb, some StaticTask.task2_tcb, some StaticTask.task3_tcb,
      some StaticTask.task4_tcb].Nodup
    decide
  · intro h hh
    have hl : [(Start_Task (FreeROTS_Start ⟨[], h0, h1, h2, h3, h4⟩).1).1.task1_handler,
        (Start_Task (FreeROTS_Start ⟨[], h0, h1, h2, h3, h4⟩).1).1.task2_handler,
        (Start_Task (FreeROTS_Start ⟨[], h0, h1, h2, h3, h4⟩).1).1.task3_handler,
        (Start_Task (FreeROTS_Start ⟨[], h0, h1, h2, h3, h4⟩).1).1.task4_handler] =
        [some StaticTask.task1_tcb, some StaticTask.task2_tcb, some StaticTask.task3_tcb,
          some StaticTask.task4_tcb] := rfl
    rw [hl] at hh
    simp only [List.mem_cons, List.mem_singleton, List.not_mem_nil, or_false] at hh
    rcases hh with h | h | h | h <;> subst h <;> simp

/-- Witness for C6: the state at reset. -/
theorem Start_Task_leaves_four_tasks_witness :
    (Start_Task (FreeROTS_Start DemoState.boot).1).1.live.map (fun t => t.pxTaskCode) =
        [TaskFunction.vTask1, TaskFunction.vTask2, TaskFunction.vTask3, TaskFunction.vTask4] ∧
      (Start_Task (FreeROTS_Start DemoState.boot).1).1.live.length = 4 :=
  have h := Start_Task_leaves_four_tasks DemoState.boot rfl
  ⟨h.2.1, h.2.2.2.1⟩

/-! ## The time base of the HAL -/

/-- C11. `HAL_TIM_PeriodElapsedCallback(htim)` makes exactly one call of `HAL_IncTick`,
so the library millisecond counter advances by one (modulo `2 ^ 32`), when `htim` is the
address of `htim2`; for every other timer handle it makes no call and the counter is
unchanged. It never calls the scheduler tick hook. -/
theorem HAL_TIM_PeriodElapsedCallback_ticks_once (htim : TimHandlePtr) (uwTick : Nat) :
    (htim = TimHandlePtr.htim2 →
        HAL_TIM_PeriodElapsedCallback htim = [IsrCall.HAL_IncTick] ∧
        uwTickAfter (HAL_TIM_PeriodElapsedCallback htim) uwTick = (uwTick + 1) % 2 ^ 32) ∧
      (htim ≠ TimHandlePtr.htim2 →
        HAL_TIM_PeriodElapsedCallback htim = [] ∧
        uwTickAfter (HAL_TIM_PeriodElapsedCallback htim) uwTick = uwTick) ∧
      IsrCall.xPortSysTickHandler ∉ HAL_TIM_PeriodElapsedCallback htim := by
  unfold HAL_TIM_PeriodElapsedCallback
  refine ⟨?_, ?_, ?_⟩
  · intro h
    rw [if_pos h]
    exact ⟨rfl, rfl⟩
  · intro h
    rw [if_neg h]
    exact ⟨rfl, rfl⟩
  · split_ifs <;> simp

/-- Witness for C11: the handle `htim2` with the counter at 41, and a handle at another
address. -/
theorem HAL_TIM_PeriodElapsedCallback_ticks_once_witness :
    uwTickAfter (HAL_TIM_PeriodElapsedCallback TimHandlePtr.htim2) 41 = (41 + 1) % 2 ^ 32 ∧
      uwTickAfter (HAL_TIM_PeriodElapsedCallback (TimHandlePtr.other 3)) 41 = 41 :=
  ⟨((HAL_TIM_PeriodElapsedCallback_ticks_once TimHandlePtr.htim2 41).1 rfl).2,
    ((HAL_TIM_PeriodElapsedCallback_ticks_once (TimHandlePtr.other 3) 41).2.1
      (by decide)).2⟩

/-- C12. `HAL_InitTick(TickPriority)` is a no-op for every priority: it returns `HAL_OK`
and leaves the whole state of the time base as it was, the SysTick registers, the
handle of TIM2 and the millisecond counter included. -/
theorem HAL_InitTick_changes_nothing (TickPriority : Nat) (s : TimeBase) :
    (HAL_InitTick TickPriority s).2 = HAL_StatusTypeDef.HAL_OK ∧
      (HAL_InitTick TickPriority s).1 = s ∧
      (HAL_InitTick TickPriority s).1.delay.CTRL = s.delay.CTRL ∧
      (HAL_InitTick TickPriority s).1.delay.LOAD = s.delay.LOAD ∧
      (HAL_InitTick TickPriority s).1.htim2 = s.htim2 ∧
      (HAL_InitTick TickPriority s).1.uwTick = s.uwTick :=
  ⟨rfl, rfl, rfl, rfl, rfl, rfl⟩

/-- C20. For every `SystemCoreClock` that is a positive multiple of 1000000 Hz,
`MX_TIM2_Init` hands `HAL_TIM_Base_Init` the configuration
`Prescaler = SystemCoreClock / 1000000 - 1`, `Period = 999`, for which
`(Prescaler + 1) * (Period + 1) * 1000 = SystemCoreClock`; it calls `Error_Handler` if and
only if `HAL_TIM_Base_Init` or `HAL_TIM_Base_Start_IT` does not answer `HAL_OK`, and
returns if and only if both do. -/
theorem MX_TIM2_Init_one_millisecond (SystemCoreClock m : Nat)
    (rInit rStart : HAL_StatusTypeDef) (htim2 : TIM_HandleTypeDef)
    (hm : 0 < m) (hclk : SystemCoreClock = m * 1000000) (h32 : SystemCoreClock < 2 ^ 32) :
    (∃ cfg, Tim2Event.HAL_TIM_Base_Init cfg ∈
          (MX_TIM2_Init SystemCoreClock rInit rStart htim2).1 ∧
        (∀ c, Tim2Event.HAL_TIM_Base_Init c ∈
          (MX_TIM2_Init SystemCoreClock rInit rStart htim2).1 → c = cfg) ∧
        cfg.Instance = some TIM_TypeDef.TIM2 ∧
        cfg.Init.Prescaler = SystemCoreClock / 1000000 - 1 ∧
        cfg.Init.Period = 999 ∧
        (cfg.Init.Prescaler + 1) * (cfg.Init.Period + 1) * 1000 = SystemCoreClock) ∧
      (Tim2Event.Error_Handler ∈ (MX_TIM2_Init SystemCoreClock rInit rStart htim2).1 ↔
        (rInit ≠ HAL_StatusTypeDef.HAL_OK ∨ rStart ≠ HAL_StatusTypeDef.HAL_OK)) ∧
      ((∃ h, (MX_TIM2_Init SystemCoreClock rInit rStart htim2).2 = Outcome.returned h) ↔
        (rInit = HAL_StatusTypeDef.HAL_OK ∧ rStart = HAL_StatusTypeDef.HAL_OK)) := by
  have hq : SystemCoreClock / 1000000 = m := by
    rw [hclk]; exact Nat.mul_div_cancel m (by norm_num)
  have hp : sub32 (SystemCoreClock / 1000000) 1 = m - 1 := by
    rw [hq]; exact sub32_of_le hm (by omega)
  refine ⟨⟨⟨some TIM_TypeDef.TIM2, ⟨m - 1, TIM_COUNTERMODE_UP, 999,
    htim2.Init.ClockDivision, htim2.Init.RepetitionCounter,
    TIM_AUTORELOAD_PRELOAD_DISABLE⟩⟩, ?_, ?_, rfl, ?_, rfl, ?_⟩, ?_, ?_⟩
  · unfold MX_TIM2_Init
    rw [hp]
    split_ifs <;> simp
  · intro c hc
    unfold MX_TIM2_Init at hc
    rw [hp] at hc
    split_ifs at hc <;> simpa using hc
  · show m - 1 = SystemCoreClock / 1000000 - 1
    rw [hq]
  · show (m - 1 + 1) * (999 + 1) * 1000 = SystemCoreClock
    rw [hclk, Nat.sub_add_cancel hm]
    ring
  · unfold MX_TIM2_Init
    by_cases h1 : rInit = HAL_StatusTypeDef.HAL_OK
    · by_cases h2 : rStart = HAL_StatusTypeDef.HAL_OK
      · simp [h1, h2]
      · simp [h1, h2]
    · simp [h1]
  · unfold MX_TIM2_Init
    by_cases h1 : rInit = HAL_StatusTypeDef.HAL_OK
    · by_cases h2 : rStart = HAL_StatusTypeDef.HAL_OK
      · simp [h1, h2]
      · simp [h1, h2]
    · simp [h1]

/-- Witness for C20: at 72 MHz the prescaler is 71, and with both HAL calls answering
`HAL_OK` the function returns without calling `Error_Handler`. -/
theorem MX_TIM2_Init_one_millisecond_witness :
    (MX_TIM2_Init 72000000 HAL_StatusTypeDef.HAL_OK HAL_StatusTypeDef.HAL_OK
        TIM_HandleTypeDef.boot).2 =
        Outcome.returned ⟨some TIM_TypeDef.TIM2, ⟨71, 0, 999, 0, 0, 0⟩⟩ ∧
      (Tim2Event.Error_Handler ∈ (MX_TIM2_Init 72000000 HAL_StatusTypeDef.HAL_OK
          HAL_StatusTypeDef.HAL_OK TIM_HandleTypeDef.boot).1 ↔
        (HAL_StatusTypeDef.HAL_OK ≠ HAL_StatusTypeDef.HAL_OK ∨
          HAL_StatusTypeDef.HAL_OK ≠ HAL_StatusTypeDef.HAL_OK)) :=
  ⟨by decide, (MX_TIM2_Init_one_millisecond 72000000 72 HAL_StatusTypeDef.HAL_OK
    HAL_StatusTypeDef.HAL_OK TIM_HandleTypeDef.boot (by decide) (by decide) (by decide)).2.1⟩

/-! ## Start of day: order and buffers -/

/-- C13. The statements of `Start_Task`, in the static and in the dynamic demo, are in
this order: enter the critical section, create `vTask1`, `vTask2`, `vTask3`, `vTask4`,
delete the task designated by `start_task_handler` (which after `FreeROTS_Start` is the
start task itself), exit the critical section. Hence every creation and the deletion
happen inside the critical section, the deletion after the last creation and before the
exit, and the critical section is entered once and exited once. -/
theorem Start_Task_order {H : Type} (s : DemoState) (h : Option H) :
    (Start_Task s).2.map StartEvent.step =
        [StartStep.enterCritical, StartStep.create TaskFunction.vTask1,
          StartStep.create TaskFunction.vTask2, StartStep.create TaskFunction.vTask3,
          StartStep.create TaskFunction.vTask4, StartStep.delete, StartStep.exitCritical] ∧
      (Start_Task_dynamic h).map DynStartEvent.step = (Start_Task s).2.map StartEvent.step ∧
      (Start_Task s).2.get? 5 = some (StartEvent.vTaskDelete s.start_task_handler) ∧
      (Start_Task_dynamic h).get? 5 = some (DynStartEvent.vTaskDelete h) ∧
      (FreeROTS_Start s).1.start_task_handler = some StaticTask.start_task_tcb ∧
      insideCritical 0 false ((Start_Task s).2.map StartEvent.step) = true ∧
      ((Start_Task s).2.map StartEvent.step).count StartStep.enterCritical = 1 ∧
      ((Start_Task s).2.map StartEvent.step).count StartStep.exitCritical = 1 ∧
      ((Start_Task s).2.map StartEvent.step).count StartStep.delete = 1 := by
  have h1 : (Start_Task s).2.map StartEvent.step =
      [StartStep.enterCritical, StartStep.create TaskFunction.vTask1,
        StartStep.create TaskFunction.vTask2, StartStep.create TaskFunction.vTask3,
        StartStep.create TaskFunction.vTask4, StartStep.delete, StartStep.exitCritical] := rfl
  rw [h1]
  exact ⟨rfl, rfl, rfl, rfl, rfl, by decide, by decide, by decide, by decide⟩

/-- C14. In the static demo each of the five calls of `xTaskCreateStatic` (for
`Start_Task` and `vTask1` .. `vTask4`) passes a stack depth equal to the declared length
of the stack array it passes, 128 words, and a control block of its own: the five stack
arrays together with the stack arrays of the idle and timer service tasks are pairwise
distinct objects, and so are the five control blocks together with the two service
control blocks. -/
theorem static_tasks_own_buffers (s : DemoState) :
    (createCalls ((FreeROTS_Start s).2 ++ (Start_Task (FreeROTS_Start s).1).2)).map
        (fun t => t.pxTaskCode) =
        [TaskFunction.Start_Task, TaskFunction.vTask1, TaskFunction.vTask2,
          TaskFunction.vTask3, TaskFunction.vTask4] ∧
      (∀ t ∈ createCalls ((FreeROTS_Start s).2 ++ (Start_Task (FreeROTS_Start s).1).2),
        t.ulStackDepth = t.puxStackBuffer.length ∧ t.ulStackDepth = 128) ∧
      ((createCalls ((FreeROTS_Start s).2 ++ (Start_Task (FreeROTS_Start s).1).2)).map
          (fun t => t.puxStackBuffer) ++
        [StackBuffer.idle_task_stack, StackBuffer.timer_task_stack]).Nodup ∧
      ((createCalls ((FreeROTS_Start s).2 ++ (Start_Task (FreeROTS_Start s).1).2)).map
          (fun t => t.pxTaskBuffer) ++
        [StaticTask.idle_task_tcb, StaticTask.timer_task_tcb]).Nodup := by
  have hc : createCalls ((FreeROTS_Start s).2 ++ (Start_Task (FreeROTS_Start s).1).2) =
      [⟨.Start_Task, "Start_Task", 128, 0, .start_task_stack, .start_task_tcb⟩,
        ⟨.vTask1, "vTask1", 128, 1, .task1_stack, .task1_tcb⟩,
        ⟨.vTask2, "vTask2", 128, 2, .task2_stack, .task2_tcb⟩,
        ⟨.vTask3, "vTask3", 128, 3, .task3_stack, .task3_tcb⟩,
        ⟨.vTask4, "vTask4", 128, 4, .task4_stack, .task4_tcb⟩] := rfl
  rw [hc]
  refine ⟨rfl, ?_, by decide, by decide⟩
  intro t ht
  simp only [List.mem_cons, List.mem_singleton, List.not_mem_nil, or_false] at ht
  rcases ht with h | h | h | h | h <;> subst h <;> exact ⟨rfl, rfl⟩

/-- C16. The two memory providers do not depend on what their targets held before: every
call of `vApplicationGetIdleTaskMemory` yields `&idle_task_tcb`, `idle_task_stack` and
128, every call of `vApplicationGetTimerTaskMemory` yields `&timer_task_tcb`,
`timer_task_stack` and `configTIMER_TASK_STACK_DEPTH = 256`. Each size reported is the
declared length of the stack array returned, and the buffers of the idle task differ
from those of the timer task. -/
theorem memory_providers_are_fixed (out1 out2 : TaskMemory) :
    vApplicationGetIdleTaskMemory out1 =
        ⟨some StaticTask.idle_task_tcb, some StackBuffer.idle_task_stack, 128⟩ ∧
      vApplicationGetIdleTaskMemory out1 = vApplicationGetIdleTaskMemory out2 ∧
      vApplicationGetTimerTaskMemory out1 =
        ⟨some StaticTask.timer_task_tcb, some StackBuffer.timer_task_stack, 256⟩ ∧
      vApplicationGetTimerTaskMemory out1 = vApplicationGetTimerTaskMemory out2 ∧
      configTIMER_TASK_STACK_DEPTH = 256 ∧
      (vApplicationGetIdleTaskMemory out1).stackBuffer.map StackBuffer.length =
        some (vApplicationGetIdleTaskMemory out1).stackSize ∧
      (vApplicationGetTimerTaskMemory out1).stackBuffer.map StackBuffer.length =
        some (vApplicationGetTimerTaskMemory out1).stackSize ∧
      (vApplicationGetIdleTaskMemory out1).tcbBuffer ≠
        (vApplicationGetTimerTaskMemory out2).tcbBuffer ∧
      (vApplicationGetIdleTaskMemory out1).stackBuffer ≠
        (vApplicationGetTimerTaskMemory out2).stackBuffer :=
  ⟨rfl, rfl, rfl, rfl, rfl, rfl, rfl,
    show some StaticTask.idle_task_tcb ≠ some StaticTask.timer_task_tcb by decide,
    show some StackBuffer.idle_task_stack ≠ some StackBuffer.timer_task_stack by decide⟩

/-! ## The key scan -/

theorem Key_Scan_code_le (k1 k2 : Nat) (s : KeyState) :
    (Key_Scan k1 k2 s).2 = 0 ∨ (Key_Scan k1 k2 s).2 = 1 ∨ (Key_Scan k1 k2 s).2 = 2 := by
  unfold Key_Scan
  simp only
  split_ifs <;> simp

theorem keyScanRun_codes (samples : List (Nat × Nat)) :
    ∀ s : KeyState, (∀ c ∈ (keyScanRun samples s).2, c = 0 ∨ c = 1 ∨ c = 2) ∧
      (keyScanRun samples s).2.length = samples.length := by
  induction samples with
  | nil => intro s; simp [keyScanRun]
  | cons p rest ih =>
    intro s
    obtain ⟨k1, k2⟩ := p
    obtain ⟨h1, h2⟩ := ih (Key_Scan k1 k2 s).1
    constructor
    · intro c hc
      simp only [keyScanRun, List.mem_cons] at hc
      rcases hc with hc | hc
      · rw [hc]; exact Key_Scan_code_le k1 k2 s
      · exact h1 c hc
    · simp only [keyScanRun, List.length_cons, h2]

theorem keyScanRun_last (samples : List (Nat × Nat)) (k1 k2 : Nat) :
    ∀ s : KeyState, (keyScanRun (samples ++ [(k1, k2)]) s).1 = ⟨k1, k2⟩ := by
  induction samples with
  | nil => intro s; rfl
  | cons p rest ih =>
    intro s
    obtain ⟨a, b⟩ := p
    simp only [List.cons_append, keyScanRun]
    exact ih _

/-- C19. For every state of its static variables and every pair of sampled levels,
`Key_Scan` returns 0, 1 or 2: it returns 2 exactly when KEY2 read 1 (released) at the
previous scan and reads 0 (pressed) now, 1 exactly when KEY1 has such a transition and
KEY2 has none, and 0 otherwise. After the call the stored last states are the levels
just sampled, so a key that reads pressed on two consecutive scans is not reported on
the second. Over every sequence of samples one code in 0..2 is returned per scan and
the stored states end as the last sample. -/
theorem Key_Scan_reports_new_press (k1 k2 : Nat) (s : KeyState)
    (samples : List (Nat × Nat)) :
    ((Key_Scan k1 k2 s).2 = 0 ∨ (Key_Scan k1 k2 s).2 = 1 ∨ (Key_Scan k1 k2 s).2 = 2) ∧
      ((Key_Scan k1 k2 s).2 = 2 ↔ (s.key2_last_state = 1 ∧ k2 = 0)) ∧
      ((Key_Scan k1 k2 s).2 = 1 ↔
        ((s.key1_last_state = 1 ∧ k1 = 0) ∧ ¬ (s.key2_last_state = 1 ∧ k2 = 0))) ∧
      ((Key_Scan k1 k2 s).2 = 0 ↔
        (¬ (s.key1_last_state = 1 ∧ k1 = 0) ∧ ¬ (s.key2_last_state = 1 ∧ k2 = 0))) ∧
      (Key_Scan k1 k2 s).1 = ⟨k1, k2⟩ ∧
      (∀ n1 n2, k1 = 0 → n1 = 0 → (Key_Scan n1 n2 (Key_Scan k1 k2 s).1).2 ≠ 1) ∧
      (∀ n1 n2, k2 = 0 → n2 = 0 → (Key_Scan n1 n2 (Key_Scan k1 k2 s).1).2 ≠ 2) ∧
      (∀ c ∈ (keyScanRun samples s).2, c = 0 ∨ c = 1 ∨ c = 2) ∧
      (keyScanRun samples s).2.length = samples.length ∧
      (keyScanRun (samples ++ [(k1, k2)]) s).1 = ⟨k1, k2⟩ := by
  refine ⟨Key_Scan_code_le k1 k2 s, ?_, ?_, ?_, rfl, ?_, ?_, (keyScanRun_codes samples s).1,
    (keyScanRun_codes samples s).2, keyScanRun_last samples k1 k2 s⟩
  · unfold Key_Scan
    simp only
    split_ifs <;> simp_all
  · unfold Key_Scan
    simp only
    split_ifs <;> simp_all
  · unfold Key_Scan
    simp only
    split_ifs <;> simp_all
  · intro n1 n2 hk hn
    subst hk hn
    unfold Key_Scan
    simp only
    split_ifs <;> simp_all
  · intro n1 n2 hk hn
    subst hk hn
    unfold Key_Scan
    simp only
    split_ifs <;> simp_all

/-- Witness for C19: both keys released, then KEY1 pressed and held for two scans while
KEY2 is pressed on the second. -/
theorem Key_Scan_reports_new_press_witness :
    (Key_Scan 0 1 KeyState.boot).2 = 1 ∧
      (keyScanRun [(1, 1), (0, 1), (0, 0), (0, 0)] KeyState.boot).2 = [0, 1, 2, 0] :=
  ⟨((Key_Scan_reports_new_press 0 1 KeyState.boot []).2.2.1).mpr (by decide), by decide⟩

/-! ## The receive callback of the serial port -/

set_option maxRecDepth 100000 in
theorem sta_bits_count : ∀ k < 200,
    k &&& 0x8000 = 0 ∧ k &&& 0x4000 = 0 ∧ k &&& 0x3FFF = k ∧ k ||| 0x4000 = 0x4000 + k := by
  decide

set_option maxRecDepth 100000 in
theorem sta_bits_cr : ∀ k < 200,
    (0x4000 + k) &&& 0x8000 = 0 ∧ (0x4000 + k) &&& 0x4000 ≠ 0 ∧
      (0x4000 + k) ||| 0x8000 = 0xC000 + k ∧ (0x4000 + k) &&& 0x3FFF = k := by
  decide

set_option maxRecDepth 100000 in
theorem sta_bits_done : ∀ k < 200,
    (0xC000 + k) &&& 0x8000 ≠ 0 ∧ (0xC000 + k) &&& 0x3FFF = k ∧
      0x8000 ||| 0x4000 ||| k = 0xC000 + k := by
  decide

theorem HAL_UART_RxCpltCallback_valid (isUx : Bool) (byte : Nat) (s : UsartRx)
    (h : usartStaValid s.g_usart_rx_sta) :
    usartStaValid (HAL_UART_RxCpltCallback isUx byte s).1.g_usart_rx_sta ∧
      (∀ i, (HAL_UART_RxCpltCallback isUx byte s).2 = some i → i < 200) ∧
      (HAL_UART_RxCpltCallback isUx byte s).1.g_usart_rx_buf.length =
        s.g_usart_rx_buf.length := by
  obtain ⟨sta, buf⟩ := s
  simp only at h
  cases isUx
  · exact ⟨h, by simp [HAL_UART_RxCpltCallback], rfl⟩
  · rcases h with h | ⟨h1, h2⟩ | ⟨h1, h2⟩
    · obtain ⟨b1, b2, b3, b4⟩ := sta_bits_count sta h
      unfold HAL_UART_RxCpltCallback
      simp only [if_true, b1, b2, b3, b4, ne_eq, not_true_eq_false, if_false]
      by_cases hb : byte = 0x0d
      · rw [if_pos hb]
        refine ⟨Or.inr (Or.inl ?_), by simp, rfl⟩
        unfold toU16
        simp only
        omega
      · rw [if_neg hb]
        have hs : toU16 (sta + 1) = sta + 1 := by unfold toU16; omega
        rw [hs]
        unfold USART_REC_LEN
        split_ifs with hov
        · exact ⟨Or.inl (by norm_num), by simp; omega, by simp⟩
        · exact ⟨Or.inl (by simp only; omega), by simp; omega, by simp⟩
    · obtain ⟨k, rfl⟩ : ∃ k, sta = 0x4000 + k := ⟨sta - 0x4000, by omega⟩
      obtain ⟨b1, b2, b3, b4⟩ := sta_bits_cr k (by omega)
      unfold HAL_UART_RxCpltCallback
      simp only [if_true, b1, b2, b3, ne_eq, not_false_eq_true]
      by_cases hb : byte = 0x0a
      · rw [if_neg (not_not.mpr hb)]
        refine ⟨Or.inr (Or.inr ?_), by simp, rfl⟩
        unfold toU16
        simp only
        omega
      · rw [if_pos hb]
        exact ⟨Or.inl (by norm_num), by simp, rfl⟩
    · obtain ⟨k, rfl⟩ : ∃ k, sta = 0xC000 + k := ⟨sta - 0xC000, by omega⟩
      obtain ⟨b1, b2, b3⟩ := sta_bits_done k (by omega)
      unfold HAL_UART_RxCpltCallback
      rw [if_pos rfl, if_neg b1]
      exact ⟨Or.inr (Or.inr ⟨by simp only; omega, by simp only; omega⟩), by simp, rfl⟩

theorem usartRun_valid (inputs : List UsartInput) :
    ∀ s : UsartRx, usartStaValid s.g_usart_rx_sta →
      usartStaValid (usartRun inputs s).1.g_usart_rx_sta ∧
        (∀ i ∈ (usartRun inputs s).2, i < 200) ∧
        (usartRun inputs s).1.g_usart_rx_buf.length = s.g_usart_rx_buf.length := by
  induction inputs with
  | nil => intro s h; exact ⟨h, by simp [usartRun], rfl⟩
  | cons x rest ih =>
    intro s h
    cases x with
    | received byte =>
      obtain ⟨v1, v2, v3⟩ := HAL_UART_RxCpltCallback_valid true byte s h
      obtain ⟨w1, w2, w3⟩ := ih (HAL_UART_RxCpltCallback true byte s).1 v1
      refine ⟨w1, ?_, by simp only [usartRun]; rw [w3, v3]⟩
      intro i hi
      simp only [usartRun, List.mem_append] at hi
      rcases hi with hi | hi
      · exact v2 i (by simpa using hi)
      · exact w2 i hi
    | cleared =>
      simp only [usartRun]
      exact ih ⟨0, s.g_usart_rx_buf⟩ (Or.inl (by norm_num))

theorem usartStaValid_count {sta : Nat} (h : usartStaValid sta) : sta &&& 0x3FFF < 200 := by
  rcases h with h | ⟨h1, h2⟩ | ⟨h1, h2⟩
  · rw [(sta_bits_count sta h).2.2.1]; exact h
  · obtain ⟨k, rfl⟩ : ∃ k, sta = 0x4000 + k := ⟨sta - 0x4000, by omega⟩
    rw [(sta_bits_cr k (by omega)).2.2.2]; omega
  · obtain ⟨k, rfl⟩ : ∃ k, sta = 0xC000 + k := ⟨sta - 0xC000, by omega⟩
    rw [(sta_bits_done k (by omega)).2.1]; omega

/-- C17. Starting from `g_usart_rx_sta = 0`, for every sequence of bytes delivered to
`HAL_UART_RxCpltCallback`, interleaved in any way with the application clearing
`g_usart_rx_sta`, the count in bits 13..0 of `g_usart_rx_sta` stays in
0 .. `USART_REC_LEN - 1` = 0 .. 199, and every index `g_usart_rx_sta & 0x3FFF` the
callback stored through lies inside the 200 bytes of `g_usart_rx_buf`, whose length
never changes. -/
theorem usart_count_stays_in_buffer (inputs : List UsartInput) (buf : List Nat) :
    (usartRun inputs ⟨0, buf⟩).1.g_usart_rx_sta &&& 0x3FFF ≤ USART_REC_LEN - 1 ∧
      (∀ i ∈ (usartRun inputs ⟨0, buf⟩).2, i < USART_REC_LEN) ∧
      (usartRun inputs ⟨0, buf⟩).1.g_usart_rx_buf.length = buf.length := by
  obtain ⟨h1, h2, h3⟩ := usartRun_valid inputs ⟨0, buf⟩ (Or.inl (by norm_num))
  have hc := usartStaValid_count h1
  unfold USART_REC_LEN
  exact ⟨by omega, h2, h3⟩

theorem take_succ_set {l : List Nat} {n : Nat} (a : Nat) (h : n < l.length) :
    (l.set n a).take (n + 1) = l.take n ++ [a] := by
  rw [List.set_eq_take_append_cons_drop, if_pos h]
  have hl : (l.take n).length = n := by
    rw [List.length_take]; omega
  have := @List.take_append Nat (l.take n) (a :: l.drop (n + 1)) 1
  rw [hl] at this
  rw [this]
  rfl

theorem HAL_UART_RxCpltCallback_store {j byte : Nat} (buf : List Nat) (hj : j < 199)
    (hb : byte ≠ 0x0d) :
    HAL_UART_RxCpltCallback true byte ⟨j, buf⟩ = (⟨j + 1, buf.set j byte⟩, some j) := by
  obtain ⟨b1, b2, b3, _⟩ := sta_bits_count j (by omega)
  have hs : toU16 (j + 1) = j + 1 := by unfold toU16; omega
  unfold HAL_UART_RxCpltCallback
  simp only [if_true, b1, b2, b3, ne_eq, not_true_eq_false, if_false]
  rw [if_neg hb, hs, if_neg (by unfold USART_REC_LEN; omega)]

theorem HAL_UART_RxCpltCallback_cr {k : Nat} (buf : List Nat) (hk : k < 200) :
    HAL_UART_RxCpltCallback true 0x0d ⟨k, buf⟩ = (⟨0x4000 + k, buf⟩, none) := by
  obtain ⟨b1, b2, _, b4⟩ := sta_bits_count k hk
  have hs : toU16 (0x4000 + k) = 0x4000 + k := by unfold toU16; omega
  unfold HAL_UART_RxCpltCallback
  simp only [if_true, b1, b2, b4, ne_eq, not_true_eq_false, if_false, hs]

theorem HAL_UART_RxCpltCallback_lf {k : Nat} (buf : List Nat) (hk : k < 200) (byte : Nat) :
    HAL_UART_RxCpltCallback true byte ⟨0x4000 + k, buf⟩ =
      (⟨if byte = 0x0a then 0xC000 + k else 0, buf⟩, none) := by
  obtain ⟨b1, b2, b3, _⟩ := sta_bits_cr k hk
  have hs : toU16 (0xC000 + k) = 0xC000 + k := by unfold toU16; omega
  unfold HAL_UART_RxCpltCallback
  simp only [if_true, b1, b3, ne_eq, hs]
  rw [if_pos b2]
  by_cases hb : byte = 0x0a
  · rw [if_neg (not_not.mpr hb), if_pos hb]
  · rw [if_pos hb, if_neg hb]

theorem usartRun_payload (payload : List Nat) :
    ∀ (w buf : List Nat) (rest : List UsartInput),
      w.length + payload.length ≤ 199 → (∀ b ∈ payload, b ≠ 0x0d) →
      buf.length = 200 → buf.take w.length = w →
      ∃ buf2, buf2.length = 200 ∧ buf2.take (w.length + payload.length) = w ++ payload ∧
        (usartRun (payload.map UsartInput.received ++ rest) ⟨w.length, buf⟩).1 =
          (usartRun rest ⟨w.length + payload.length, buf2⟩).1 := by
  induction payload with
  | nil =>
    intro w buf rest _ _ hlen hw
    exact ⟨buf, hlen, by simpa using hw, by simp⟩
  | cons b p ih =>
    intro w buf rest hfit hno hlen hw
    simp only [List.length_cons] at hfit
    have hb : b ≠ 0x0d := hno b (List.mem_cons_self b p)
    have hstep := HAL_UART_RxCpltCallback_store buf (show w.length < 199 by omega) hb
    have hw1 : (buf.set w.length b).take (w ++ [b]).length = w ++ [b] := by
      rw [List.length_append, List.length_singleton, take_succ_set b (by omega), hw]
    obtain ⟨buf2, h1, h2, h3⟩ := ih (w ++ [b]) (buf.set w.length b) rest
      (by rw [List.length_append, List.length_singleton]; omega)
      (fun x hx => hno x (List.mem_cons_of_mem b hx))
      (by rw [List.length_set]; exact hlen) hw1
    rw [List.length_append, List.length_singleton] at h2 h3
    refine ⟨buf2, h1, ?_, ?_⟩
    · rw [List.length_cons, show w.length + (p.length + 1) = w.length + 1 + p.length by omega,
        h2]
      simp
    · simp only [List.map_cons, List.cons_append, usartRun, hstep]
      refine Eq.trans h3 ?_
      rw [List.length_cons,
        show w.length + (p.length + 1) = w.length + 1 + p.length by omega]

/-- C18. Starting from `g_usart_rx_sta = 0`, for every payload of `k ≤ 199` bytes none of
which is `0x0d`: feeding `HAL_UART_RxCpltCallback` the payload, then `0x0d`, then `0x0a`
leaves `g_usart_rx_sta = 0x8000 | 0x4000 | k` and the first `k` bytes of
`g_usart_rx_buf` equal to the payload; if the byte after `0x0d` is not `0x0a`, the state
is `0` again, so that no frame is reported. -/
theorem usart_frame_received (payload buf : List Nat) (hk : payload.length ≤ 199)
    (hno : ∀ b ∈ payload, b ≠ 0x0d) (hbuf : buf.length = USART_REC_LEN) :
    (usartRun (payload.map UsartInput.received ++
          [UsartInput.received 0x0d, UsartInput.received 0x0a]) ⟨0, buf⟩).1.g_usart_rx_sta =
        0x8000 ||| 0x4000 ||| payload.length ∧
      (usartRun (payload.map UsartInput.received ++
          [UsartInput.received 0x0d, UsartInput.received 0x0a])
        ⟨0, buf⟩).1.g_usart_rx_buf.take payload.length = payload ∧
      (∀ byte, byte ≠ 0x0a →
        (usartRun (payload.map UsartInput.received ++
            [UsartInput.received 0x0d, UsartInput.received byte])
          ⟨0, buf⟩).1.g_usart_rx_sta = 0 ∧
        (usartRun (payload.map UsartInput.received ++
            [UsartInput.received 0x0d, UsartInput.received byte])
          ⟨0, buf⟩).1.g_usart_rx_sta &&& 0x8000 = 0) := by
  obtain ⟨buf2, h1, h2, h3⟩ := usartRun_payload payload [] buf
    [UsartInput.received 0x0d, UsartInput.received 0x0a] (by simpa using hk) hno hbuf rfl
  simp only [List.length_nil, Nat.zero_add, List.nil_append] at h2 h3
  have hk2 : payload.length < 200 := by omega
  have hbits := (sta_bits_done payload.length hk2).2.2
  refine ⟨?_, ?_, ?_⟩
  · rw [h3]
    simp only [usartRun, HAL_UART_RxCpltCallback_cr buf2 hk2,
      HAL_UART_RxCpltCallback_lf buf2 hk2, if_true]
    exact hbits.symm
  · rw [h3]
    simp only [usartRun, HAL_UART_RxCpltCallback_cr buf2 hk2,
      HAL_UART_RxCpltCallback_lf buf2 hk2]
    exact h2
  · intro byte hbyte
    obtain ⟨buf3, _, _, g3⟩ := usartRun_payload payload [] buf
      [UsartInput.received 0x0d, UsartInput.received byte] (by simpa using hk) hno hbuf rfl
    simp only [List.length_nil, Nat.zero_add] at g3
    rw [g3]
    refine ⟨?_, ?_⟩ <;>
      simp [usartRun, HAL_UART_RxCpltCallback_cr buf3 hk2,
        HAL_UART_RxCpltCallback_lf buf3 hk2, hbyte]

/-- Witness for C18: the three bytes `0x41 0x42 0x0a` framed by `0x0d 0x0a`, received
into a buffer of 200 zero bytes. -/
theorem usart_frame_received_witness :
    (usartRun ([0x41, 0x42, 0x0a].map UsartInput.received ++
          [UsartInput.received 0x0d, UsartInput.received 0x0a])
        ⟨0, List.replicate 200 0⟩).1.g_usart_rx_sta = 0x8000 ||| 0x4000 ||| 3 ∧
      (usartRun ([0x41, 0x42, 0x0a].map UsartInput.received ++
          [UsartInput.received 0x0d, UsartInput.received 0x0a])
        ⟨0, List.replicate 200 0⟩).1.g_usart_rx_buf.take 3 = [0x41, 0x42, 0x0a] :=
  have h := usart_frame_received [0x41, 0x42, 0x0a] (List.replicate 200 0) (by decide)
    (by decide) (List.length_replicate 200 0)
  ⟨h.1, h.2.1⟩

/-! ## Calls after initialisation -/

theorem delay_init_g_fac_ms {HZ sysclk : Nat} {s0 s : DelayState}
    (hinit : delay_init HZ sysclk s0 = Outcome.returned s) :
    HZ ≠ 0 ∧ s.g_fac_ms = 1000 / HZ := by
  unfold delay_init at hinit
  by_cases h0 : HZ = 0
  · rw [if_pos h0] at hinit
    cases hinit
  · rw [if_neg h0] at hinit
    injection hinit with hs
    rw [← hs]
    refine ⟨h0, ?_⟩
    show toU16 (1000 / HZ) = 1000 / HZ
    have hq : 1000 / HZ ≤ 1000 := Nat.div_le_self _ _
    unfold toU16
    exact Nat.mod_eq_of_lt (by omega)

theorem delay_ms_returns (HZ : Nat) (s : DelayState) (ipsr : Nat) (sched : SchedulerState)
    (nms : Nat) (h : s.g_fac_ms ≠ 0 ∨ ¬ (ipsr = 0 ∧ sched = SchedulerState.taskSCHEDULER_RUNNING)) :
    ∃ calls, delay_ms HZ s ipsr sched nms = Outcome.returned calls := by
  unfold delay_ms
  by_cases hctx : ipsr = 0 ∧ sched = SchedulerState.taskSCHEDULER_RUNNING
  · rw [if_pos hctx]
    rcases h with h | h
    · simp only
      rw [if_neg h]
      exact ⟨_, rfl⟩
    · exact absurd hctx h
  · rw [if_neg hctx]
    exact ⟨_, rfl⟩

theorem DelayOp_after_eq (HZ : Nat) (s : DelayState) (h : s.g_fac_ms ≠ 0) (op : DelayOp) :
    op.after HZ s = Outcome.returned s := by
  cases op with
  | delay_us nus v0 ds => rfl
  | delay_ms ipsr sched nms =>
    obtain ⟨calls, hc⟩ := delay_ms_returns HZ s ipsr sched nms (Or.inl h)
    simp only [DelayOp.after, hc]
  | HAL_Delay ipsr sched Delay =>
    obtain ⟨calls, hc⟩ := delay_ms_returns HZ s ipsr sched (toU16 Delay) (Or.inl h)
    simp only [DelayOp.after, HAL_Delay, hc]

theorem runDelayOps_eq (HZ : Nat) (s : DelayState) (h : s.g_fac_ms ≠ 0) (ops : List DelayOp) :
    runDelayOps HZ ops s = Outcome.returned s := by
  induction ops with
  | nil => rfl
  | cons op ops ih => simp only [runDelayOps, DelayOp_after_eq HZ s h op, ih]

/-- C21. Once `delay_init` has run with `configTICK_RATE_HZ` in 1..1000,
`g_fac_ms = 1000 / configTICK_RATE_HZ ≥ 1`: the statement `nms %= g_fac_ms` of `delay_ms`
never divides by zero, and no call of `delay_us`, `delay_ms` or `HAL_Delay`, alone or in
any sequence, changes `g_fac_us` or `g_fac_ms` (or any other part of the state).
Without the precondition `g_fac_ms` is 0: before `delay_init`, and after `delay_init`
with a tick rate above 1000 Hz. -/
theorem delay_ms_divisor_nonzero (HZ sysclk : Nat) (s0 s : DelayState) (ops : List DelayOp)
    (hlo : 1 ≤ HZ) (hhi : HZ ≤ 1000)
    (hinit : delay_init HZ sysclk s0 = Outcome.returned s) :
    s.g_fac_ms = 1000 / HZ ∧ 1 ≤ s.g_fac_ms ∧
      (∀ ipsr sched nms, delay_ms HZ s ipsr sched nms ≠ Outcome.undefined) ∧
      (∀ op : DelayOp, op.after HZ s = Outcome.returned s) ∧
      runDelayOps HZ ops s = Outcome.returned s ∧
      DelayState.boot.g_fac_ms = 0 ∧
      (∀ HZ1 s1, 1000 < HZ1 → delay_init HZ1 sysclk s0 = Outcome.returned s1 →
        s1.g_fac_ms = 0) := by
  have hg := (delay_init_g_fac_ms hinit).2
  have hq : 1 ≤ 1000 / HZ := (Nat.one_le_div_iff (by omega)).mpr hhi
  have hne : s.g_fac_ms ≠ 0 := by omega
  refine ⟨hg, by omega, ?_, DelayOp_after_eq HZ s hne, runDelayOps_eq HZ s hne ops, rfl, ?_⟩
  · intro ipsr sched nms hu
    obtain ⟨calls, hc⟩ := delay_ms_returns HZ s ipsr sched nms (Or.inl hne)
    rw [hc] at hu
    cases hu
  · intro HZ1 s1 hbig h1
    rw [(delay_init_g_fac_ms h1).2]
    exact Nat.div_eq_of_lt hbig

/-- Witness for C21: after `delay_init(72)` with a 1000 Hz tick, a sequence of a
busy-wait, a task-context `delay_ms(0)` and a `HAL_Delay(65536)` leaves the state as it
was. -/
theorem delay_ms_divisor_nonzero_witness :
    (1 : Nat) ≤ 1 ∧
      runDelayOps 1000
        [DelayOp.delay_us 10 71999 [36000],
          DelayOp.delay_ms 0 SchedulerState.taskSCHEDULER_RUNNING 0,
          DelayOp.HAL_Delay 0 SchedulerState.taskSCHEDULER_RUNNING 65536]
        ⟨72, 1, 3, 71999⟩ = Outcome.returned ⟨72, 1, 3, 71999⟩ :=
  have h := delay_ms_divisor_nonzero 1000 72 DelayState.boot ⟨72, 1, 3, 71999⟩
    [DelayOp.delay_us 10 71999 [36000],
      DelayOp.delay_ms 0 SchedulerState.taskSCHEDULER_RUNNING 0,
      DelayOp.HAL_Delay 0 SchedulerState.taskSCHEDULER_RUNNING 65536]
    (by decide) (by decide) (by decide)
  ⟨h.2.1, h.2.2.2.2.1⟩

set_option maxRecDepth 100000 in
/-- C22. The target count of `delay_us` is `(nus * g_fac_us) mod 2 ^ 32`: it equals
`nus * g_fac_us` exactly when the product is below `2 ^ 32`, which at `g_fac_us = 72`
means `nus ≤ 59652323`, and wraps otherwise. So at `g_fac_us = 72` the call
`delay_ms(60000)` made outside task context calls `delay_us(60000000)`, whose target is
25032704 counts instead of 4320000000; with `LOAD = 71999` and the counter read every
71999 counts that call returns on the 348th read, when 25055652 counts have elapsed. -/
theorem delay_us_target_wraps (HZ : Nat) (s : DelayState) (ipsr : Nat) (sched : SchedulerState)
    (nus v0 : Nat) (ds : List Nat) :
    delay_us s nus v0 ds = delay_us_loop s.LOAD s.LOAD (delay_us_ticks s nus) v0 0 0 0 ds ∧
      delay_us_ticks s nus = (nus * s.g_fac_us) % 2 ^ 32 ∧
      (delay_us_ticks s nus = nus * s.g_fac_us ↔ nus * s.g_fac_us < 2 ^ 32) ∧
      (nus * 72 < 2 ^ 32 ↔ nus ≤ 59652323) ∧
      (s.g_fac_us = 72 → ¬ (ipsr = 0 ∧ sched = SchedulerState.taskSCHEDULER_RUNNING) →
        delay_ms HZ s ipsr sched 60000 = Outcome.returned [DelayCall.delay_us 60000000] ∧
        delay_us_ticks s 60000000 = 25032704 ∧
        60000000 * s.g_fac_us = 4320000000 ∧
        delay_us_ticks s 60000000 < 60000000 * s.g_fac_us) ∧
      delay_us ⟨72, 1, 3, 71999⟩ 60000000 71999 (List.replicate 348 71999) =
        some ⟨25055305, 25055652, 348⟩ := by
  refine ⟨rfl, rfl, ?_, by omega, ?_, by decide⟩
  · unfold delay_us_ticks mul32
    constructor
    · intro h
      rw [← h]
      exact Nat.mod_lt _ (by norm_num)
    · intro h
      exact Nat.mod_eq_of_lt h
  · intro hg hctx
    refine ⟨?_, ?_, ?_, ?_⟩
    · unfold delay_ms
      rw [if_neg hctx]
      rfl
    · unfold delay_us_ticks mul32
      rw [hg]
      decide
    · rw [hg]
    · unfold delay_us_ticks mul32
      rw [hg]
      decide

/-- Witness for C22: the shipped calibration, `delay_ms(60000)` called from an interrupt
handler. -/
theorem delay_us_target_wraps_witness :
    delay_ms 1000 ⟨72, 1, 3, 71999⟩ 15 SchedulerState.taskSCHEDULER_RUNNING 60000 =
        Outcome.returned [DelayCall.delay_us 60000000] ∧
      delay_us_ticks ⟨72, 1, 3, 71999⟩ 60000000 = 25032704 :=
  have h := (delay_us_target_wraps 1000 ⟨72, 1, 3, 71999⟩ 15
    SchedulerState.taskSCHEDULER_RUNNING 0 0 []).2.2.2.2.1 rfl (by decide)
  ⟨h.1, h.2.1⟩

/-- C23 (fails on the code). In a build with a 2000 Hz tick `delay_init(72)` leaves
`g_fac_ms = 0`. There `HAL_Delay(65536)`, that is `delay_ms(0)`, called in task context
with the scheduler running passes the test `nms >= g_fac_ms`, so that `vTaskDelay` is
called, and then divides by zero in `nms %= g_fac_ms`: it is not a call that does
nothing. The same holds before `delay_init` has run. -/
theorem HAL_Delay_65536_zero_divisor :
    delay_init 2000 72 DelayState.boot = Outcome.returned ⟨72, 0, 3, 35999⟩ ∧
      toU16 65536 = 0 ∧ (0 ≥ (⟨72, 0, 3, 35999⟩ : DelayState).g_fac_ms) ∧
      HAL_Delay 2000 ⟨72, 0, 3, 35999⟩ 0 SchedulerState.taskSCHEDULER_RUNNING 65536 =
        Outcome.undefined ∧
      HAL_Delay 2000 ⟨72, 0, 3, 35999⟩ 0 SchedulerState.taskSCHEDULER_RUNNING 65536 ≠
        Outcome.returned [] ∧
      HAL_Delay 1000 DelayState.boot 0 SchedulerState.taskSCHEDULER_RUNNING 65536 =
        Outcome.undefined := by
  decide

/-- C23 (amended). For every 32 bit `Delay`, in every state and context, `HAL_Delay(Delay)`
behaves exactly as `delay_ms(Delay mod 65536)`: the argument is truncated to 16 bits, so
`HAL_Delay(d)` and `HAL_Delay(d + 65536)` are indistinguishable. `HAL_Delay(65536)`
calls neither `vTaskDelay` nor `delay_us` whenever `g_fac_ms ≥ 1` or the call is made
outside task context. -/
theorem HAL_Delay_truncates (HZ : Nat) (s : DelayState) (ipsr : Nat) (sched : SchedulerState)
    (Delay : Nat) :
    HAL_Delay HZ s ipsr sched Delay = delay_ms HZ s ipsr sched (Delay % 65536) ∧
      HAL_Delay HZ s ipsr sched (Delay + 65536) = HAL_Delay HZ s ipsr sched Delay ∧
      ((1 ≤ s.g_fac_ms ∨ ¬ (ipsr = 0 ∧ sched = SchedulerState.taskSCHEDULER_RUNNING)) →
        HAL_Delay HZ s ipsr sched 65536 = Outcome.returned []) := by
  refine ⟨rfl, ?_, ?_⟩
  · unfold HAL_Delay toU16
    rw [show (Delay + 65536) % 2 ^ 16 = Delay % 2 ^ 16 by omega]
  · intro h
    have h0 : toU16 65536 = 0 := by decide
    unfold HAL_Delay
    rw [h0]
    unfold delay_ms
    by_cases hctx : ipsr = 0 ∧ sched = SchedulerState.taskSCHEDULER_RUNNING
    · rw [if_pos hctx]
      rcases h with h | h
      · have hne : s.g_fac_ms ≠ 0 := by omega
        have hlt : ¬ (0 ≥ s.g_fac_ms) := by omega
        simp only [hlt, if_false, hne, Nat.zero_mod, gt_iff_lt, Nat.lt_irrefl,
          List.append_nil]
      · exact absurd hctx h
    · rw [if_neg hctx]
      rfl

/-- Witness for the amended C23: the shipped calibration, `HAL_Delay(65536)` called from
a task with the scheduler running. -/
theorem HAL_Delay_truncates_witness :
    HAL_Delay 1000 ⟨72, 1, 3, 71999⟩ 0 SchedulerState.taskSCHEDULER_RUNNING 65536 =
      Outcome.returned [] :=
  (HAL_Delay_truncates 1000 ⟨72, 1, 3, 71999⟩ 0 SchedulerState.taskSCHEDULER_RUNNING
    65536).2.2 (Or.inl (by decide))

/-! ## The critical section of the busy-wait -/

theorem IrqState_elapse_elapse (q : IrqState) (a b : Nat) :
    (q.elapse a).elapse b = q.elapse (a + b) := by
  unfold IrqState.elapse
  by_cases h : q.uxCriticalNesting ≠ 0
  · rw [if_pos h, if_pos h]
    simp only
    rw [if_pos h, Nat.add_assoc]
  · rw [if_neg h, if_neg h, if_neg h]

theorem IrqState_elapse_masked (q : IrqState) (a : Nat) (h : q.uxCriticalNesting ≠ 0) :
    (q.elapse a).uxCriticalNesting = q.uxCriticalNesting ∧
      (q.elapse a).maskedCounts = q.maskedCounts + a := by
  unfold IrqState.elapse
  rw [if_pos h]
  exact ⟨rfl, rfl⟩

/-- The loop with the mask carried along makes the reads of `delay_us_loop`, and the
gaps between them pass under the mask it was entered with. -/
theorem delay_us_masked_loop_eq (LOAD reload ticks : Nat) :
    ∀ (ds : List Nat) (told tcnt : Nat) (q : IrqState) (e n : Nat),
      delay_us_masked_loop LOAD reload ticks told tcnt q ds =
        (delay_us_loop LOAD reload ticks told tcnt e n ds).map
          (fun r => (r.tcnt, q.elapse (r.elapsed - e))) := by
  intro ds
  induction ds with
  | nil => intro told tcnt q e n; rfl
  | cons d ds ih =>
    intro told tcnt q e n
    have key : ∀ told1 tcnt1,
        delay_us_masked_loop LOAD reload ticks told1 tcnt1 (q.elapse d) ds =
          (delay_us_loop LOAD reload ticks told1 tcnt1 (e + d) (n + 1) ds).map
            (fun r => (r.tcnt, q.elapse (r.elapsed - e))) := by
      intro told1 tcnt1
      rw [ih told1 tcnt1 (q.elapse d) (e + d) (n + 1)]
      cases hr : delay_us_loop LOAD reload ticks told1 tcnt1 (e + d) (n + 1) ds with
      | none => rfl
      | some r =>
        have hge := (delay_us_loop_elapsed ds told1 tcnt1 (e + d) (n + 1) r hr).2.2
        simp only [Option.map_some']
        rw [IrqState_elapse_elapse]
        have : d + (r.elapsed - (e + d)) = r.elapsed - e := by omega
        rw [this]
    simp only [delay_us_masked_loop, delay_us_loop]
    split_ifs with h1 h2
    · simp only [Option.map_some']
      have : e + d - e = d := by omega
      rw [this]
    · exact key _ _
    · exact key _ _

/-- An upper bound on the counts elapsed when the loop is left, for a target of less
than one reload period: while successive reads are at most `gap ≤ LOAD` counts apart and
`ticks + gap ≤ LOAD + 1`, at most one reload happens before the target is reached, and
the loop is left within `ticks + gap` counts. -/
theorem delay_us_loop_upper {LOAD ticks gap : Nat} (u0 : Nat) (hL : LOAD < 2 ^ 24)
    (hgap : gap ≤ LOAD) (hfit : ticks + gap ≤ LOAD + 1) (hu : u0 ≤ LOAD) :
    ∀ (ds : List Nat) (told tcnt e n : Nat) (r : DelayUsResult),
      told ≤ LOAD → (∀ d ∈ ds, d ≤ gap) →
      ((tcnt = e ∧ LOAD - told = u0 + e) ∨
        (tcnt + 1 = e ∧ LOAD - told + (LOAD + 1) = u0 + e)) →
      e ≤ ticks →
      delay_us_loop LOAD LOAD ticks told tcnt e n ds = some r →
      r.elapsed ≤ ticks + gap := by
  intro ds
  induction ds with
  | nil => intro told tcnt e n r _ _ _ _ h; simp [delay_us_loop] at h
  | cons d ds ih =>
    intro told tcnt e n r hv hds hinv he h
    have hd : d ≤ gap := hds d (List.mem_cons_self d ds)
    have hds1 : ∀ x ∈ ds, x ≤ gap := fun x hx => hds x (List.mem_cons_of_mem d hx)
    simp only [delay_us_loop] at h
    rcases Nat.eq_zero_or_pos d with hd0 | hd0
    · subst hd0
      rw [sysTickAfter_zero hv] at h
      simp only [ne_eq, not_true_eq_false, if_false, Nat.add_zero] at h
      exact ih told tcnt e (n + 1) r hv hds1 hinv he h
    · have hdL : d ≤ LOAD := by omega
      have hinc := tcntIncrement_after (show LOAD < 2 ^ 32 by omega) hv hd0 hdL
      have hnow := sysTickAfter_of_le hv hdL
      have hne : sysTickAfter LOAD told d ≠ told := by
        rw [hnow]; split_ifs <;> omega
      rw [if_pos hne, hinc] at h
      have hadd : add32 tcnt (if d ≤ told then d else d - 1) =
          tcnt + (if d ≤ told then d else d - 1) :=
        add32_of_lt (by split_ifs <;> omega)
      rw [hadd] at h
      by_cases hge : tcnt + (if d ≤ told then d else d - 1) ≥ ticks
      · rw [if_pos hge] at h
        injection h with h
        rw [← h]
        show e + d ≤ ticks + gap
        omega
      · rw [if_neg hge] at h
        refine ih _ _ (e + d) (n + 1) r (sysTickAfter_le LOAD told d) hds1 ?_ ?_ h
        · rw [hnow]
          by_cases hw : d ≤ told
          · rw [if_pos hw] at hge ⊢
            rw [if_pos hw]
            rcases hinv with ⟨i1, i2⟩ | ⟨i1, i2⟩
            · exact Or.inl ⟨by omega, by omega⟩
            · exact Or.inr ⟨by omega, by omega⟩
          · rw [if_neg hw] at hge ⊢
            rw [if_neg hw]
            rcases hinv with ⟨i1, i2⟩ | ⟨i1, i2⟩
            · exact Or.inr ⟨by omega, by omega⟩
            · exfalso; omega
        · by_cases hw : d ≤ told
          · rw [if_pos hw] at hge
            rcases hinv with ⟨i1, i2⟩ | ⟨i1, i2⟩ <;> omega
          · rw [if_neg hw] at hge
            rcases hinv with ⟨i1, i2⟩ | ⟨i1, i2⟩ <;> omega

theorem delay_us_masked_eq (s : DelayState) (nus v0 dEnter : Nat) (ds : List Nat)
    (dExit : Nat) (q q1 : IrqState)
    (hret : delay_us_masked s nus v0 dEnter ds dExit q = some q1) :
    ∃ r, delay_us s nus v0 ds = some r ∧ q1.uxCriticalNesting = q.uxCriticalNesting ∧
      q1.maskedCounts = q.maskedCounts + (dEnter + r.elapsed + dExit) := by
  unfold delay_us_masked at hret
  simp only at hret
  rw [delay_us_masked_loop_eq s.LOAD s.LOAD (mul32 nus s.g_fac_us) ds v0 0
    ((portENTER_CRITICAL q).elapse dEnter) 0 0] at hret
  unfold delay_us
  cases hr : delay_us_loop s.LOAD s.LOAD (mul32 nus s.g_fac_us) v0 0 0 0 ds with
  | none => rw [hr] at hret; cases hret
  | some r =>
    rw [hr] at hret
    simp only [Option.map_some', Nat.sub_zero, Option.some.injEq] at hret
    refine ⟨r, rfl, ?_, ?_⟩
    · rw [← hret]
      have h1 : (portENTER_CRITICAL q).uxCriticalNesting ≠ 0 := by
        show q.uxCriticalNesting + 1 ≠ 0
        omega
      rw [IrqState_elapse_elapse, IrqState_elapse_elapse]
      show ((portENTER_CRITICAL q).elapse (dEnter + (r.elapsed + dExit))).uxCriticalNesting - 1
        = q.uxCriticalNesting
      rw [(IrqState_elapse_masked _ _ h1).1]
      show q.uxCriticalNesting + 1 - 1 = q.uxCriticalNesting
      omega
    · rw [← hret]
      have h1 : (portENTER_CRITICAL q).uxCriticalNesting ≠ 0 := by
        show q.uxCriticalNesting + 1 ≠ 0
        omega
      rw [IrqState_elapse_elapse, IrqState_elapse_elapse]
      show ((portENTER_CRITICAL q).elapse (dEnter + (r.elapsed + dExit))).maskedCounts = _
      rw [(IrqState_elapse_masked _ _ h1).2]
      show q.maskedCounts + (dEnter + (r.elapsed + dExit)) = _
      omega

/-- C9 (fails on the code). At 72 counts per microsecond and `LOAD = 71999`, with no time
at all spent between `portENTER_CRITICAL` and the first read and between the last read
and `portEXIT_CRITICAL`, `delay_us(2000)` keeps interrupts disabled for 180000 counts:
more than the 72000 counts of one reload period. -/
theorem delay_us_critical_section_exceeds_period :
    delay_us_masked ⟨72, 1, 3, 71999⟩ 2000 71999 0 [36000, 36000, 36000, 36000, 36000] 0
        ⟨0, 0⟩ = some ⟨0, 180000⟩ ∧
      delay_us ⟨72, 1, 3, 71999⟩ 2000 71999 [36000, 36000, 36000, 36000, 36000] =
        some ⟨179998, 180000, 5⟩ ∧ ¬ (180000 ≤ 71999 + 1) := by
  decide

/-- C9 (amended). `delay_us` opens its critical section before the first read of the
counter and closes it after the loop is left, so interrupts stay disabled for the whole
busy-wait: when the call returns, the nesting of critical sections is what it was, and
the counts elapsed with interrupts disabled are those between `portENTER_CRITICAL` and
the first read, plus those between the first read and the read on which the loop is
left, plus those up to `portEXIT_CRITICAL`. This span covers at most one hardware
reload period (`LOAD + 1` counts) for the short delays: whenever successive reads are at
most `gap ≤ LOAD` counts apart and `dEnter + nus * g_fac_us + gap + dExit ≤ LOAD + 1`. It
exceeds one reload period whenever `nus * g_fac_us > LOAD + 1`. -/
theorem delay_us_critical_section_span (s : DelayState) (nus v0 dEnter : Nat)
    (ds : List Nat) (dExit gap : Nat) (q q1 : IrqState)
    (hrange : nus * s.g_fac_us < 2 ^ 32) (hL : s.LOAD < 2 ^ 24) (hv : v0 ≤ s.LOAD)
    (hret : delay_us_masked s nus v0 dEnter ds dExit q = some q1) :
    q1.uxCriticalNesting = q.uxCriticalNesting ∧
      (∃ r, delay_us s nus v0 ds = some r ∧
        q1.maskedCounts = q.maskedCounts + (dEnter + r.elapsed + dExit)) ∧
      ((∀ d ∈ ds, d ≤ gap) → gap ≤ s.LOAD →
        dEnter + nus * s.g_fac_us + gap + dExit ≤ s.LOAD + 1 →
        q1.maskedCounts ≤ q.maskedCounts + (s.LOAD + 1)) ∧
      (s.LOAD + 1 < nus * s.g_fac_us →
        q.maskedCounts + (s.LOAD + 1) < q1.maskedCounts) := by
  obtain ⟨r, hr, hn, hm⟩ := delay_us_masked_eq s nus v0 dEnter ds dExit q q1 hret
  have hticks : mul32 nus s.g_fac_us = nus * s.g_fac_us := Nat.mod_eq_of_lt hrange
  have hloop : delay_us_loop s.LOAD s.LOAD (nus * s.g_fac_us) v0 0 0 0 ds = some r := by
    rw [← hticks]; exact hr
  refine ⟨hn, ⟨r, hr, hm⟩, ?_, ?_⟩
  · intro hds hgap hfit
    have hup := delay_us_loop_upper (s.LOAD - v0) hL hgap
      (show nus * s.g_fac_us + gap ≤ s.LOAD + 1 by omega) (Nat.sub_le _ _)
      ds v0 0 0 0 r hv hds (Or.inl ⟨rfl, by omega⟩) (Nat.zero_le _) hloop
    omega
  · intro hlong
    have hlow := (delay_us_loop_sound (show s.LOAD < 2 ^ 32 by omega) ds v0 0 0 0 r hv
      (Nat.le_refl 0) hloop)
    omega

/-- Witness for the amended C9: `delay_us(2000)` as above, whose target of 144000 counts
is longer than one reload period, and `delay_us(100)` read every 720 counts with 5 counts
before the first and after the last read, whose critical section of 7210 counts stays
within one. -/
theorem delay_us_critical_section_span_witness :
    delay_us_masked ⟨72, 1, 3, 71999⟩ 100 71999 5
        [720, 720, 720, 720, 720, 720, 720, 720, 720, 720, 720] 5 ⟨0, 0⟩ = some ⟨0, 7210⟩ ∧
      7210 ≤ 0 + (71999 + 1) ∧
      delay_us_masked ⟨72, 1, 3, 71999⟩ 2000 71999 0 [36000, 36000, 36000, 36000, 36000] 0
        ⟨0, 0⟩ = some ⟨0, 180000⟩ ∧
      0 + (71999 + 1) < 180000 :=
  ⟨by decide,
    (delay_us_critical_section_span ⟨72, 1, 3, 71999⟩ 100 71999 5
      [720, 720, 720, 720, 720, 720, 720, 720, 720, 720, 720] 5 720 ⟨0, 0⟩ ⟨0, 7210⟩
      (by decide) (by decide) (by decide) (by decide)).2.2.1 (by decide) (by decide)
      (by decide),
    by decide,
    (delay_us_critical_section_span ⟨72, 1, 3, 71999⟩ 2000 71999 0
      [36000, 36000, 36000, 36000, 36000] 0 36000 ⟨0, 0⟩ ⟨0, 180000⟩
      (by decide) (by decide) (by decide) (by decide)).2.2.2 (by decide)⟩

/-! ## Initialisation: coefficients and calibration -/

theorem delay_init_returned {HZ : Nat} (sysclk : Nat) (s : DelayState) (hHZ : 0 < HZ) :
    delay_init HZ sysclk s =
      Outcome.returned ⟨toU16 sysclk, toU16 (1000 / HZ),
        (s.CTRL ||| SysTick_CTRL_TICKINT_Msk) ||| SysTick_CTRL_ENABLE_Msk,
        sub32 (mul32 (toU16 sysclk) (1000000 / HZ)) 1 % 2 ^ 24⟩ := by
  unfold delay_init
  rw [if_neg (by omega)]

theorem toU16_of_lt {a : Nat} (h : a < 2 ^ 16) : toU16 a = a := by
  unfold toU16
  exact Nat.mod_eq_of_lt h

theorem toU16_quotient (HZ : Nat) : toU16 (1000 / HZ) = 1000 / HZ := by
  have hq : 1000 / HZ ≤ 1000 := Nat.div_le_self _ _
  exact toU16_of_lt (by omega)

/-- C8 (fails on the code). `delay_init(0)` returns with `g_fac_us = 0` stored. In a
build with a 2000 Hz tick `delay_init(72)` returns with `g_fac_ms = 0` stored, and `main`,
the clock and TIM2 initialisations having returned, goes on through all its calls to
`FreeROTS_Start`, which registers `Start_Task` and starts the scheduler with that zero
coefficient in place. -/
theorem delay_init_stores_zero_coefficient :
    delay_init 1000 0 DelayState.boot = Outcome.returned ⟨0, 1, 3, 16777215⟩ ∧
      delay_init 2000 72 DelayState.boot = Outcome.returned ⟨72, 0, 3, 35999⟩ ∧
      main 2000 72000000 HAL_StatusTypeDef.HAL_OK HAL_StatusTypeDef.HAL_OK
          HAL_StatusTypeDef.HAL_OK HAL_StatusTypeDef.HAL_OK =
        ([MainCall.HAL_Init, MainCall.sys_stm32_clock_init RCC_PLL_MUL9,
            MainCall.usart_init 115200, MainCall.delay_init 72, MainCall.MX_TIM2_Init,
            MainCall.Key_Init, MainCall.LED_Init, MainCall.OLED_Init,
            MainCall.FreeROTS_Start],
          MainEnd.schedulerStarted ⟨72, 0, 3, 35999⟩ (FreeROTS_Start DemoState.boot).1) := by
  decide

/-- C8 (amended). `delay_init` has no fatal path and makes no test of the coefficients it
computes: for every `sysclk` of type `uint16_t` and every nonzero tick rate it returns,
having stored `g_fac_us = sysclk`, which is zero exactly when `sysclk = 0`, and
`g_fac_ms = 1000 / configTICK_RATE_HZ`, which is zero exactly when the tick rate is above
1000 Hz. `main` makes no test of them either: it never returns, and it reaches
`FreeROTS_Start`, which starts the scheduler, exactly when the clock initialisation and
`MX_TIM2_Init` return, that is when the four HAL calls they make answer `HAL_OK`; the
scheduler is then started with whatever `delay_init(72)` stored, `g_fac_us = 72` and
`g_fac_ms = 1000 / configTICK_RATE_HZ`. -/
theorem delay_init_zero_coefficients (HZ sysclk SystemCoreClock : Nat) (s : DelayState)
    (rOsc rClk rInit rStart : HAL_StatusTypeDef) (hHZ : 0 < HZ) (hclk : sysclk < 2 ^ 16) :
    delay_init HZ sysclk s ≠ Outcome.halted ∧
      (∃ s1, delay_init HZ sysclk s = Outcome.returned s1 ∧
        s1.g_fac_us = sysclk ∧ s1.g_fac_ms = 1000 / HZ ∧
        (s1.g_fac_us = 0 ↔ sysclk = 0) ∧ (s1.g_fac_ms = 0 ↔ 1000 < HZ)) ∧
      (∃ d, delay_init HZ 72 DelayState.boot = Outcome.returned d ∧
        d.g_fac_us = 72 ∧ d.g_fac_ms = 1000 / HZ ∧
        ((rOsc = HAL_StatusTypeDef.HAL_OK ∧ rClk = HAL_StatusTypeDef.HAL_OK ∧
            rInit = HAL_StatusTypeDef.HAL_OK ∧ rStart = HAL_StatusTypeDef.HAL_OK) →
          main HZ SystemCoreClock rOsc rClk rInit rStart =
            ([MainCall.HAL_Init, MainCall.sys_stm32_clock_init RCC_PLL_MUL9,
                MainCall.usart_init 115200, MainCall.delay_init 72, MainCall.MX_TIM2_Init,
                MainCall.Key_Init, MainCall.LED_Init, MainCall.OLED_Init,
                MainCall.FreeROTS_Start],
              MainEnd.schedulerStarted d (FreeROTS_Start DemoState.boot).1)) ∧
        (∀ d1 demo, (main HZ SystemCoreClock rOsc rClk rInit rStart).2 =
            MainEnd.schedulerStarted d1 demo →
          d1 = d ∧ rOsc = HAL_StatusTypeDef.HAL_OK ∧ rClk = HAL_StatusTypeDef.HAL_OK ∧
            rInit = HAL_StatusTypeDef.HAL_OK ∧ rStart = HAL_StatusTypeDef.HAL_OK) ∧
        (MainCall.FreeROTS_Start ∈ (main HZ SystemCoreClock rOsc rClk rInit rStart).1 ↔
          (rOsc = HAL_StatusTypeDef.HAL_OK ∧ rClk = HAL_StatusTypeDef.HAL_OK ∧
            rInit = HAL_StatusTypeDef.HAL_OK ∧ rStart = HAL_StatusTypeDef.HAL_OK))) := by
  have hret := delay_init_returned sysclk s hHZ
  have h72 := delay_init_returned 72 DelayState.boot hHZ
  have hzero : 1000 / HZ = 0 ↔ 1000 < HZ := Nat.div_eq_zero_iff hHZ
  refine ⟨by rw [hret]; simp, ⟨_, hret, toU16_of_lt hclk, toU16_quotient HZ, ?_, ?_⟩,
    ⟨_, h72, rfl, toU16_quotient HZ, ?_, ?_, ?_⟩⟩
  · show toU16 sysclk = 0 ↔ sysclk = 0
    rw [toU16_of_lt hclk]
  · show toU16 (1000 / HZ) = 0 ↔ 1000 < HZ
    rw [toU16_quotient, hzero]
  · rintro ⟨h1, h2, h3, h4⟩
    subst h1 h2 h3 h4
    unfold main
    rw [h72]
    rfl
  · intro d1 demo hmain
    unfold main at hmain
    rw [h72] at hmain
    cases rOsc <;> cases rClk <;> cases rInit <;> cases rStart <;>
      simp [sys_stm32_clock_init, MX_TIM2_Init] at hmain ⊢
    exact hmain.1.symm
  · unfold main
    rw [h72]
    cases rOsc <;> cases rClk <;> cases rInit <;> cases rStart <;>
      simp [sys_stm32_clock_init, MX_TIM2_Init]

/-- Witness for the amended C8: the shipped configuration, `delay_init(72)` with a
1000 Hz tick and all HAL calls answering `HAL_OK`; the scheduler is started with
`g_fac_us = 72` and `g_fac_ms = 1`. -/
theorem delay_init_zero_coefficients_witness :
    delay_init 1000 72 DelayState.boot ≠ Outcome.halted ∧
      ∃ d, delay_init 1000 72 DelayState.boot = Outcome.returned d ∧
        d.g_fac_us = 72 ∧ d.g_fac_ms = 1000 / 1000 ∧
        (main 1000 72000000 HAL_StatusTypeDef.HAL_OK HAL_StatusTypeDef.HAL_OK
          HAL_StatusTypeDef.HAL_OK HAL_StatusTypeDef.HAL_OK).2 =
          MainEnd.schedulerStarted d (FreeROTS_Start DemoState.boot).1 := by
  have h := delay_init_zero_coefficients 1000 72 72000000 DelayState.boot
    HAL_StatusTypeDef.HAL_OK HAL_StatusTypeDef.HAL_OK HAL_StatusTypeDef.HAL_OK
    HAL_StatusTypeDef.HAL_OK (by decide) (by decide)
  obtain ⟨d, hd, h1, h2, hmain, _, _⟩ := h.2.2
  exact ⟨h.1, d, hd, h1, h2, by rw [hmain ⟨rfl, rfl, rfl, rfl⟩]⟩

/-- C15 (fails on the code). With `sysclk = 0` and a 1000 Hz tick the premises of the
claim hold, but `delay_init` leaves `LOAD = 0xFFFFFF`, so that `(LOAD + 1) * 1000` is not
`sysclk * 1000000 = 0`. With `sysclk = 65608` and a tick rate of 1000000 Hz the premises
hold as well, but the `uint16_t` parameter receives 72: `delay_init` stores
`g_fac_us = 72` and `LOAD = 71`. -/
theorem delay_init_zero_clock_reload :
    1000 ∣ 1000000 ∧ 0 * (1000000 / 1000) ≤ 2 ^ 24 ∧
      delay_init 1000 0 DelayState.boot = Outcome.returned ⟨0, 1, 3, 16777215⟩ ∧
      (16777215 + 1) * 1000 ≠ 0 * 1000000 ∧
      1000000 ∣ 1000000 ∧ 65608 * (1000000 / 1000000) ≤ 2 ^ 24 ∧
      delay_init 1000000 65608 DelayState.boot = Outcome.returned ⟨72, 0, 3, 71⟩ ∧
      72 ≠ 65608 ∧ 71 ≠ 65608 * (1000000 / 1000000) - 1 := by
  decide

/-- C15 (amended). For every core clock `sysclk` in 1 .. 65535 (in MHz, the range of the
`uint16_t` parameter without zero) and every tick rate that divides 1000000 with
`sysclk * (1000000 / tick_hz) ≤ 2 ^ 24`, `delay_init(sysclk)` returns with
`g_fac_us = sysclk`, `g_fac_ms = 1000 / tick_hz` and
`LOAD = sysclk * (1000000 / tick_hz) - 1`, so that the reload period `LOAD + 1` times the
tick rate is the core clock `sysclk * 1000000` Hz, and with the bits `TICKINT` and
`ENABLE` of `CTRL` set. -/
theorem delay_init_calibration (HZ sysclk : Nat) (s : DelayState) (hclk : 1 ≤ sysclk)
    (hu16 : sysclk ≤ 65535) (hdiv : HZ ∣ 1000000)
    (hfit : sysclk * (1000000 / HZ) ≤ 2 ^ 24) :
    ∃ s1, delay_init HZ sysclk s = Outcome.returned s1 ∧
      s1.g_fac_us = sysclk ∧ s1.g_fac_ms = 1000 / HZ ∧
      s1.LOAD = sysclk * (1000000 / HZ) - 1 ∧
      (s1.LOAD + 1) * HZ = sysclk * 1000000 ∧
      s1.CTRL.testBit 1 = true ∧ s1.CTRL.testBit 0 = true := by
  have hHZ : 0 < HZ := by
    rcases Nat.eq_zero_or_pos HZ with h | h
    · subst h; obtain ⟨g, hg⟩ := hdiv; omega
    · exact h
  have hle : HZ ≤ 1000000 := Nat.le_of_dvd (by omega) hdiv
  have hq1 : 1 ≤ 1000000 / HZ := (Nat.one_le_div_iff hHZ).mpr hle
  have hqm : 1000000 / HZ * HZ = 1000000 := Nat.div_mul_cancel hdiv
  have hr1 : 1 ≤ sysclk * (1000000 / HZ) := Nat.mul_pos hclk hq1
  have h16 : toU16 sysclk = sysclk := toU16_of_lt (by omega)
  have hmul : mul32 sysclk (1000000 / HZ) = sysclk * (1000000 / HZ) := by
    unfold mul32
    exact Nat.mod_eq_of_lt (by omega)
  have hsub : sub32 (sysclk * (1000000 / HZ)) 1 = sysclk * (1000000 / HZ) - 1 :=
    sub32_of_le hr1 (by omega)
  have hload : sub32 (mul32 (toU16 sysclk) (1000000 / HZ)) 1 % 2 ^ 24 =
      sysclk * (1000000 / HZ) - 1 := by
    rw [h16, hmul, hsub]
    exact Nat.mod_eq_of_lt (by omega)
  refine ⟨_, delay_init_returned sysclk s hHZ, h16, toU16_quotient HZ, hload, ?_, ?_, ?_⟩
  · show (sub32 (mul32 (toU16 sysclk) (1000000 / HZ)) 1 % 2 ^ 24 + 1) * HZ = sysclk * 1000000
    rw [hload, Nat.sub_add_cancel hr1, Nat.mul_assoc, hqm]
  · show ((s.CTRL ||| SysTick_CTRL_TICKINT_Msk) ||| SysTick_CTRL_ENABLE_Msk).testBit 1 = true
    have hbit : SysTick_CTRL_TICKINT_Msk.testBit 1 = true := by decide
    rw [Nat.testBit_or, Nat.testBit_or, hbit]
    simp
  · show ((s.CTRL ||| SysTick_CTRL_TICKINT_Msk) ||| SysTick_CTRL_ENABLE_Msk).testBit 0 = true
    have hbit : SysTick_CTRL_ENABLE_Msk.testBit 0 = true := by decide
    rw [Nat.testBit_or, hbit]
    simp

/-- Witness for the amended C15: `delay_init(72)` with a 1000 Hz tick gives
`g_fac_us = 72`, `g_fac_ms = 1`, `LOAD = 71999`. -/
theorem delay_init_calibration_witness :
    delay_init 1000 72 DelayState.boot = Outcome.returned ⟨72, 1, 3, 71999⟩ ∧
      ∃ s1, delay_init 1000 72 DelayState.boot = Outcome.returned s1 ∧
        s1.g_fac_us = 72 ∧ s1.g_fac_ms = 1000 / 1000 ∧
        s1.LOAD = 72 * (1000000 / 1000) - 1 ∧
        (s1.LOAD + 1) * 1000 = 72 * 1000000 ∧
        s1.CTRL.testBit 1 = true ∧ s1.CTRL.testBit 0 = true :=
  ⟨by decide, delay_init_calibration 1000 72 DelayState.boot (by decide) (by decide)
    (by decide) (by decide)⟩

end Freerots
